import Mathlib

/-!
Shallow embedding of the gocomply license resolution engine.

The Go program under verification discovers a module's repository via the
go-import discovery protocol, then fetches a license file using
provider-specific URL rules, with an optional accelerated GitHub API path.
Network and JSON effects are modelled as oracles carried in an `Env`
structure; everything else is translated directly from the source.
-/

namespace Gocomply

/-- Models Go `strings.HasPrefix`. -/
def goHasPre (s p : String) : Bool := p.data.isPrefixOf s.data

/-- Models Go `strings.TrimPrefix`. -/
def goTrimPre (s p : String) : String :=
  if goHasPre s p then ⟨s.data.drop p.data.length⟩ else s

/-- Models Go `strings.HasSuffix`. -/
def goHasSuf (s suf : String) : Bool := suf.data.isSuffixOf s.data

/-- Models Go `strings.TrimSuffix`. -/
def goTrimSuf (s suf : String) : String :=
  if goHasSuf s suf then ⟨s.data.take (s.data.length - suf.data.length)⟩ else s

/-- Models Go `unicode.IsSpace` on the characters that can occur here
(ASCII whitespace plus NEL and NBSP). -/
def goIsSpace (c : Char) : Bool :=
  c == ' ' || c == '\t' || c == '\n' || c == '\x0b' || c == '\x0c' || c == '\r' ||
  c == '\u0085' || c == ' '

/-- Models Go `strings.TrimSpace`. -/
def goTrimSpace (s : String) : String :=
  ⟨((s.data.dropWhile goIsSpace).reverse.dropWhile goIsSpace).reverse⟩

/-- Models Go `strings.EqualFold` (the names compared in the program are
ASCII, where simple case folding is plain ASCII lowercasing). -/
def eqFold (a b : String) : Bool :=
  a.data.map Char.toLower == b.data.map Char.toLower

/-- Split a character list at every occurrence of `c`
(models Go `strings.Split` for a one-character separator). -/
def splitChar (c : Char) : List Char → List (List Char)
  | [] => [[]]
  | x :: xs =>
    match splitChar c xs with
    | [] => [[]]
    | g :: gs => if x == c then [] :: g :: gs else (x :: g) :: gs

/-- Models Go `strings.Split(s, "/")`. -/
def goSplitSlash (s : String) : List String :=
  (splitChar '/' s.data).map (fun l => (⟨l⟩ : String))

/-- Models Go `strings.SplitN(s, sep, n)` for a one-character separator:
at most `n` pieces, the last one unsplit. -/
def splitNChar (c : Char) : Nat → List Char → List (List Char)
  | 0, _ => []
  | 1, l => [l]
  | n + 2, l =>
    let pre := l.takeWhile (fun x => x != c)
    match l.drop pre.length with
    | [] => [l]
    | _ :: tail => pre :: splitNChar c (n + 1) tail

/-- Models Go `strings.Join(parts, "/")`. -/
def goJoinSlash : List String → String
  | [] => ""
  | [x] => x
  | x :: y :: rest => x ++ "/" ++ goJoinSlash (y :: rest)

/-! ## Data model (from the source) -/

structure GoImport where
  ImportPrefix : String
  Vcs          : String
  RepoRoot     : String
deriving DecidableEq

structure GoSource where
  ImportPrefix : String
  Home         : String
  Directory    : String
  File         : String
deriving DecidableEq

/-- The Go zero value of `GoSource`. -/
def GoSource.zero : GoSource := ⟨"", "", "", ""⟩

structure BasicAuth where
  Username : String
  Token    : String
deriving DecidableEq

def BasicAuth.IsSet (a : BasicAuth) : Bool :=
  a.Username != "" && a.Token != ""

/-- A GitHub API tree entry, as unmarshalled in `getLicense`.  The source
field `Type` is spelled `Type'` because `Type` is reserved in Lean. -/
structure APITree where
  Path  : String
  Type' : String
  Url   : String
deriving DecidableEq

/-- A GitHub API blob, as unmarshalled in `getLicense`. -/
structure APIBlob where
  Content  : String
  Encoding : String
deriving DecidableEq

/-- Errors constructed by the program.  Each constructor corresponds to one
`fmt.Errorf` site in the source; Go error values are opaque to the program
(only constructed and propagated), so an inductive with the format
arguments is a faithful model. -/
inductive Err
  | vcsNotImplemented (vcs : String)
  | gopkgParseError
  | repoNotSupported (repoRoot : String)
  | noKnownLicenseURL (module : String) (e : Err)
  | errorDecoding (url : String) (msg : String)
  | noLicenseFound (module : String)
  | troubleGettingListing (repoRoot : String) (msg : String)
  | jsonDecodeError (msg : String)
  | troubleGettingBlob (repoRoot : String) (msg : String)
  | base64DecodeError (msg : String)
  | unknownEncoding (enc : String)
  | apiNoLicenseFound
  | apiError (e : Err)
  | unrecognisedImport (module : String)
deriving DecidableEq

/-- Oracles for the effectful collaborators: `httpGet` (with optional basic
auth), `json.Unmarshal` into the two API response shapes, and the
process-wide `githubAuth` credentials. -/
structure Env where
  httpGet       : Option BasicAuth → String → Except String String
  unmarshalTree : String → Except String (List APITree)
  unmarshalBlob : String → Except String APIBlob
  githubAuth    : BasicAuth

/-! ## License file name lists (from the source) -/

/-- httpLicenseFiles to check, in order (primary fetch path, case
sensitive). -/
def httpLicenseFiles : List String :=
  ["NOTICE", -- apache, must come first
   "LICENSE",
   "LICENSE.txt",
   "LICENSE.md",
   "COPYING",
   "COPYING.txt",
   "COPYING.md"]

/-- repoLicenseFiles, in order of precedence for checking in a remote
repository via the API path (checked case insensitively). -/
def repoLicenseFiles : List String :=
  ["NOTICE", -- apache, must come first
   "NOTICE.txt",
   "LICENSE",
   "LICENSE.txt",
   "LICENSE.md",
   "LICENSE.markdown",
   "LICENSE.rst",
   "LICENCE",
   "LICENCE.txt",
   "LICENCE.md",
   "LICENCE.markdown",
   "LICENCE.rst",
   "COPYING",
   "COPYING.txt",
   "COPYRIGHT",
   "COPYRIGHT.txt",
   "MIT-LICENSE",
   "MIT-LICENSE.txt",
   "MIT-LICENCE",
   "MIT-LICENCE.txt"]

/-! ## String decoders -/

def stringDecoderIdentity (str : String) : Except String String := .ok str

/-- Value of a character in the standard base64 alphabet. -/
def b64Val (c : Char) : Option Nat :=
  if 'A' ≤ c ∧ c ≤ 'Z' then some (c.toNat - 'A'.toNat)
  else if 'a' ≤ c ∧ c ≤ 'z' then some (c.toNat - 'a'.toNat + 26)
  else if '0' ≤ c ∧ c ≤ '9' then some (c.toNat - '0'.toNat + 52)
  else if c = '+' then some 62
  else if c = '/' then some 63
  else none

/-- Decode standard base64 quanta of four characters into bytes, with `=`
padding allowed only at the very end (models Go
`base64.StdEncoding.DecodeString`). -/
def b64Groups : List Char → Except String (List Nat)
  | [] => .ok []
  | a :: b :: c :: d :: rest =>
    match b64Val a, b64Val b with
    | some va, some vb =>
      if c == '=' then
        if d == '=' && rest.isEmpty then .ok [va * 4 + vb / 16]
        else .error "illegal base64 data (padding)"
      else
        match b64Val c with
        | some vc =>
          if d == '=' then
            if rest.isEmpty then .ok [va * 4 + vb / 16, (vb % 16) * 16 + vc / 4]
            else .error "illegal base64 data (padding)"
          else
            match b64Val d with
            | some vd =>
              match b64Groups rest with
              | .ok bs =>
                .ok ([va * 4 + vb / 16, (vb % 16) * 16 + vc / 4, (vc % 4) * 64 + vd] ++ bs)
              | .error e => .error e
            | none => .error "illegal base64 data"
        | none => .error "illegal base64 data"
    | _, _ => .error "illegal base64 data"
  | _ => .error "illegal base64 data (length)"

/-- Models the Go conversion `string(bytes)` for the byte values produced
here. -/
def bytesToString (bs : List Nat) : String := ⟨bs.map (fun b => Char.ofNat b)⟩

/-- Models `stringDecoderBase64` (Go's decoder ignores CR and LF). -/
def stringDecoderBase64 (str : String) : Except String String :=
  match b64Groups (str.data.filter (fun c => c != '\r' && c != '\n')) with
  | .ok bs => .ok (bytesToString bs)
  | .error e => .error e

/-! ## resolveFileURL (from the source) -/

def resolveFileURL (gi : GoImport) (gs : GoSource) (file : String) :
    Except Err (List String × (String → Except String String)) :=
  let vcs := gi.Vcs
  let repoRoot := gi.RepoRoot
  if vcs != "git" then .error (.vcsNotImplemented vcs)
  else if goHasPre repoRoot "https://go.googlesource.com/" then
    .ok ([repoRoot ++ "/+/refs/heads/master/" ++ file ++ "?format=text"],
         stringDecoderBase64)
  else if goHasPre repoRoot "https://git.sr.ht/" then
    let dir := goTrimSuf repoRoot ".git"
    .ok ([dir ++ "/blob/master/" ++ file], stringDecoderIdentity)
  else if goHasPre repoRoot "https://gopkg.in/" then
    -- find correct branch including minor version, from the go-source
    -- directory template, e.g.
    -- https://github.com/natefinch/lumberjack/tree/v2.1{/dir}
    let dir := goTrimPre gs.Directory "https://github.com/"
    match splitNChar '/' 4 dir.data with
    | [user, repo, _part2, rest] =>
      match rest.findIdx? (fun c => c == '{') with
      | none => .error .gopkgParseError
      | some idx =>
        let user' : String := ⟨user⟩
        let repo' : String := ⟨repo⟩
        let branch : String := ⟨rest.take idx⟩
        .ok (["https://raw.githubusercontent.com/" ++ user' ++ "/" ++ repo' ++ "/" ++
              branch ++ "/" ++ file],
             stringDecoderIdentity)
    | _ => .error .gopkgParseError
  else if goHasPre repoRoot "https://github.com/" then
    let dir := goTrimSuf (goTrimPre repoRoot "https://github.com/") ".git"
    .ok (["https://raw.githubusercontent.com/" ++ dir ++ "/main/" ++ file,
          "https://raw.githubusercontent.com/" ++ dir ++ "/master/" ++ file], -- historical
         stringDecoderIdentity)
  else if goHasPre repoRoot "https://gitlab.com/" then
    let dir := goTrimSuf repoRoot ".git"
    .ok ([dir ++ "/-/raw/main/" ++ file,
          dir ++ "/-/raw/master/" ++ file], -- historical
         stringDecoderIdentity)
  else .error (.repoNotSupported repoRoot)

/-! ## Primary fetch strategy (tryGetLicense, from the source) -/

/-- The inner URL loop of `tryGetLicense`: an http error disqualifies the
URL and the next one is tried (`none` when every URL failed to fetch); a
successful fetch is decoded, a decode error being returned as a hard
failure, otherwise the trimmed text. -/
def tryUrls (env : Env) (decoder : String → Except String String) :
    List String → Option (Except Err String)
  | [] => none
  | url :: rest =>
    match env.httpGet none url with
    | .error _ => tryUrls env decoder rest
    | .ok data =>
      match decoder data with
      | .error e => some (.error (.errorDecoding url e))
      | .ok d => some (.ok (goTrimSpace d))

def tryGetLicense (env : Env) (module : String) (gi : GoImport) (gs : GoSource) :
    List String → Except Err String
  | [] => .error (.noLicenseFound module)
  | license :: rest =>
    match resolveFileURL gi gs license with
    | .error e => .error (.noKnownLicenseURL module e)
    | .ok (licenseUrls, decoder) =>
      match tryUrls env decoder licenseUrls with
      | some r => r
      | none => tryGetLicense env module gi gs rest

/-! ## Accelerated GitHub API path (the closure inside getLicense) -/

/-- Result of the api closure in `getLicense`: Go returns
`(license, missing, err)`. -/
inductive ApiOutcome
  | ok (license : String)
  | fail (missing : Bool) (e : Err)
deriving DecidableEq

/-- The tree listing URL requested by the api closure. -/
def apiTreeURL (gi : GoImport) : String :=
  "https://api.github.com/repos/" ++
    goTrimSuf (goTrimPre gi.RepoRoot "https://github.com/") ".git" ++
    "/git/trees/HEAD"

/-- Whether a tree entry is selected by the api closure's scan: a blob whose
path case-insensitively equals one of `repoLicenseFiles`.  (In the source the
inner loop over the names returns unconditionally on its first match, so only
existence of a matching name matters.) -/
def entryMatches (t : APITree) : Bool :=
  t.Type' == "blob" && repoLicenseFiles.any (fun name => eqFold t.Path name)

/-- Fetch and decode the blob of a matching tree entry (from the api
closure in `getLicense`). -/
def fetchBlob (env : Env) (gi : GoImport) (t : APITree) : ApiOutcome :=
  match env.httpGet (some env.githubAuth) t.Url with
  | .error e => .fail false (.troubleGettingBlob gi.RepoRoot e)
  | .ok data =>
    match env.unmarshalBlob data with
    | .error e => .fail false (.jsonDecodeError e)
    | .ok blob =>
      if eqFold blob.Encoding "utf-8" then .ok (goTrimSpace blob.Content)
      else if eqFold blob.Encoding "base64" then
        match stringDecoderBase64 blob.Content with
        | .error e => .fail false (.base64DecodeError e)
        | .ok raw => .ok (goTrimSpace raw)
      else .fail false (.unknownEncoding blob.Encoding)

/-- The scan over tree entries in the api closure: the first blob entry
matching a conventional license name is fetched; if none matches the
closure returns `missing = true` with a "no license found" error. -/
def scanTree (env : Env) (gi : GoImport) : List APITree → ApiOutcome
  | [] => .fail true .apiNoLicenseFound
  | t :: rest =>
    if entryMatches t then fetchBlob env gi t else scanTree env gi rest

/-- The api closure in `getLicense`: list the repository tree, scan it for
a license entry.  (The politeness `time.Sleep` has no functional effect and
is not modelled.) -/
def apiGetLicense (env : Env) (gi : GoImport) : ApiOutcome :=
  match env.httpGet (some env.githubAuth) (apiTreeURL gi) with
  | .error e => .fail false (.troubleGettingListing gi.RepoRoot e)
  | .ok data =>
    match env.unmarshalTree data with
    | .error e => .fail false (.jsonDecodeError e)
    | .ok response => scanTree env gi response

/-- getLicense (from the source): try the accelerated API path when the
repository is a git GitHub root and credentials are set; an api failure
with `missing` set is terminal, any other api failure falls through to the
primary per-file-name strategy. -/
def getLicense (env : Env) (module : String) (gi : GoImport) (gs : GoSource) :
    Except Err String :=
  if gi.Vcs == "git" && goHasPre gi.RepoRoot "https://github.com/" && env.githubAuth.IsSet then
    match apiGetLicense env gi with
    | .ok license => .ok license
    | .fail missing e =>
      if missing then .error (.apiError e)
      else tryGetLicense env module gi gs httpLicenseFiles -- proceed to fallback
  else
    tryGetLicense env module gi gs httpLicenseFiles

/-! ## Meta-tag extractor (the go-import / go-source regexes)

The two regular expressions are embedded as deterministic recursive-descent
matchers over character lists.  Maximal munch is exact for `\s*`, `\s+` and
for a `\S+` capture followed by mandatory whitespace (the classes are
complementary); the one place the Go engine backtracks — a `\S+` capture
followed by a literal `"` — is implemented by `shrinkMatch`, which tries the
greedy (longest) token first and shrinks until the continuation matches,
exactly the leftmost-first preference of the Go regexp package.  Matching at
an arbitrary position (`regexp.MatchString` searches, it does not anchor) is
`searchAt`, which prefers the leftmost start position. -/

/-- The `\s` class of the Go regexp package: `[\t\n\f\r ]`. -/
def reIsSpace (c : Char) : Bool :=
  c == '\t' || c == '\n' || c == '\x0c' || c == '\r' || c == ' '

/-- Case-insensitive character comparison, for the `(?i)` flag. -/
def lowerEq (a b : Char) : Bool := a.toLower == b.toLower

/-- Match a literal case-insensitively (under `(?i)`), returning the rest. -/
def litCI : List Char → List Char → Option (List Char)
  | [], cs => some cs
  | _ :: _, [] => none
  | l :: ls, c :: cs => if lowerEq l c then litCI ls cs else none

/-- `\s*`: maximal munch. -/
def wsStar (cs : List Char) : List Char := cs.dropWhile reIsSpace

/-- `\s+`: at least one whitespace character, then maximal munch. -/
def wsPlus : List Char → Option (List Char)
  | [] => none
  | c :: cs => if reIsSpace c then some (cs.dropWhile reIsSpace) else none

/-- `(\S+)\s+`: a captured token followed by mandatory whitespace. -/
def tokWS (cs : List Char) : Option (String × List Char) :=
  let tok := cs.takeWhile (fun c => !reIsSpace c)
  if tok.isEmpty then none
  else
    match wsPlus (cs.drop tok.length) with
    | none => none
    | some rest => some (⟨tok⟩, rest)

/-- `(\S+) `: a captured token followed by a literal single space (the
go-source content tokens are separated by literal spaces, not `\s+`). -/
def tokSP (cs : List Char) : Option (String × List Char) :=
  let tok := cs.takeWhile (fun c => !reIsSpace c)
  if tok.isEmpty then none
  else
    match cs.drop tok.length with
    | ' ' :: rest => some (⟨tok⟩, rest)
    | _ => none

/-- Backtracking for a `(\S+)` capture followed by continuation `k`: the
first argument is the reversed greedy run still claimed by the token, the
second what follows it; the longest token whose continuation matches wins. -/
def shrinkMatch (k : List Char → Bool) : List Char → List Char → Option String
  | [], _ => none
  | c :: revTok, rem =>
    if k rem then some ⟨(c :: revTok).reverse⟩
    else shrinkMatch k revTok (c :: rem)

/-- `(\S+)` followed by continuation `k`, greedy with backtracking. -/
def tokThen (k : List Char → Bool) (cs : List Char) : Option String :=
  let run := cs.takeWhile (fun c => !reIsSpace c)
  shrinkMatch k run.reverse (cs.drop run.length)

/-- The continuation `"\s*/?>` closing both directive forms. -/
def closeSeq (cs : List Char) : Bool :=
  match litCI ['"'] cs with
  | none => false
  | some cs =>
    match wsStar cs with
    | '/' :: '>' :: _ => true
    | '>' :: _ => true
    | _ => false

/-- The continuation `"\s*name\s*=\s*"go-import"\s*/?>` closing the second
(attribute-reversed) go-import form. -/
def closeSeq2 (cs : List Char) : Bool :=
  match litCI ['"'] cs with
  | none => false
  | some cs =>
    match litCI "name".data (wsStar cs) with
    | none => false
    | some cs =>
      match litCI ['='] (wsStar cs) with
      | none => false
      | some cs =>
        match litCI "\"go-import\"".data (wsStar cs) with
        | none => false
        | some cs =>
          match wsStar cs with
          | '/' :: '>' :: _ => true
          | '>' :: _ => true
          | _ => false

/-- The first go-import regex, matched at the current position:
`<\s*meta\s*name\s*=\s*"go-import"\s*content\s*=\s*"(\S+)\s+(\S+)\s+(\S+)"\s*/?>`. -/
def matchGoImport1At (cs : List Char) : Option GoImport :=
  match litCI ['<'] cs with
  | none => none
  | some cs =>
  match litCI "meta".data (wsStar cs) with
  | none => none
  | some cs =>
  match litCI "name".data (wsStar cs) with
  | none => none
  | some cs =>
  match litCI ['='] (wsStar cs) with
  | none => none
  | some cs =>
  match litCI "\"go-import\"".data (wsStar cs) with
  | none => none
  | some cs =>
  match litCI "content".data (wsStar cs) with
  | none => none
  | some cs =>
  match litCI ['='] (wsStar cs) with
  | none => none
  | some cs =>
  match litCI ['"'] (wsStar cs) with
  | none => none
  | some cs =>
  match tokWS cs with
  | none => none
  | some (ip, cs) =>
  match tokWS cs with
  | none => none
  | some (vcs, cs) =>
  match tokThen closeSeq cs with
  | none => none
  | some repoRoot => some ⟨ip, vcs, repoRoot⟩

/-- The second go-import regex (source hut has the arguments the other way
round), matched at the current position:
`<\s*meta\s*content\s*=\s*"(\S+)\s+(\S+)\s+(\S+)"\s*name\s*=\s*"go-import"\s*/?>`. -/
def matchGoImport2At (cs : List Char) : Option GoImport :=
  match litCI ['<'] cs with
  | none => none
  | some cs =>
  match litCI "meta".data (wsStar cs) with
  | none => none
  | some cs =>
  match litCI "content".data (wsStar cs) with
  | none => none
  | some cs =>
  match litCI ['='] (wsStar cs) with
  | none => none
  | some cs =>
  match litCI ['"'] (wsStar cs) with
  | none => none
  | some cs =>
  match tokWS cs with
  | none => none
  | some (ip, cs) =>
  match tokWS cs with
  | none => none
  | some (vcs, cs) =>
  match tokThen closeSeq2 cs with
  | none => none
  | some repoRoot => some ⟨ip, vcs, repoRoot⟩

/-- The go-source regex, matched at the current position; note that the `=`
after `name` is followed immediately by the quoted value, with no `\s*`,
and that the content tokens are separated by literal single spaces:
`<\s*meta\s*name\s*="go-source"\s*content\s*=\s*"(\S+) (\S+) (\S+) (\S+)"\s*/?>`. -/
def matchGoSourceAt (cs : List Char) : Option GoSource :=
  match litCI ['<'] cs with
  | none => none
  | some cs =>
  match litCI "meta".data (wsStar cs) with
  | none => none
  | some cs =>
  match litCI "name".data (wsStar cs) with
  | none => none
  | some cs =>
  match litCI "=\"go-source\"".data (wsStar cs) with
  | none => none
  | some cs =>
  match litCI "content".data (wsStar cs) with
  | none => none
  | some cs =>
  match litCI ['='] (wsStar cs) with
  | none => none
  | some cs =>
  match litCI ['"'] (wsStar cs) with
  | none => none
  | some cs =>
  match tokSP cs with
  | none => none
  | some (ip, cs) =>
  match tokSP cs with
  | none => none
  | some (home, cs) =>
  match tokSP cs with
  | none => none
  | some (dir, cs) =>
  match tokThen closeSeq cs with
  | none => none
  | some file => some ⟨ip, home, dir, file⟩

/-- Search for a match at the leftmost possible start position. -/
def searchAt {α : Type} (f : List Char → Option α) : List Char → Option α
  | [] => f []
  | c :: rest =>
    match f (c :: rest) with
    | some a => some a
    | none => searchAt f rest

/-- parseGoImport (from the source): try each regex in order, returning the
submatches of the first one that matches anywhere in the document. -/
def parseGoImport (data : String) : Option GoImport :=
  match searchAt matchGoImport1At data.data with
  | some gi => some gi
  | none => searchAt matchGoImport2At data.data

/-- parseGoSource (from the source). -/
def parseGoSource (data : String) : Option GoSource :=
  searchAt matchGoSourceAt data.data

/-! ## lookup (from the source) -/

/-- The discovery request URL `https://<module>?go-get=1`. -/
def discoveryURL (m : String) : String := "https://" ++ m ++ "?go-get=1"

/-- The synthesized private-repository guess of `lookup`. -/
def privateGuess (module : String) : GoImport :=
  ⟨module, "git", "https://" ++ module ++ ".git"⟩

/-- The conventional module root: the first three slash-delimited
segments. -/
def moduleRoot (module : String) : String :=
  goJoinSlash ((goSplitSlash module).take 3)

/-- Parsing phase of `lookup`, applied to a successful discovery response:
no go-import directive is a hard failure, the go-source directive is
optional (Go keeps the zero value when it is absent). -/
def parseLookup (module data : String) : Except Err (GoImport × GoSource) :=
  match parseGoImport data with
  | none => .error (.unrecognisedImport module)
  | some gi => .ok (gi, (parseGoSource data).getD GoSource.zero)

/-- lookup (from the source).  The second component instruments the model
with the list of discovery URLs actually requested, so that statements
about when the module-root retry happens are expressible; the first
component is the Go return value `(gi, gs, err)`. -/
def lookup (env : Env) (module : String) :
    Except Err (GoImport × GoSource) × List String :=
  let url1 := discoveryURL module
  match env.httpGet none url1 with
  | .ok data => (parseLookup module data, [url1])
  | .error _ =>
    -- attempt module root, for example
    -- https://github.com/go-gl/glfw/v3.3/glfw -> https://github.com/go-gl/glfw
    let parts := goSplitSlash module
    if parts.length > 3 then
      let url2 := discoveryURL (moduleRoot module)
      match env.httpGet none url2 with
      | .ok data => (parseLookup module data, [url1, url2])
      | .error _ => (.ok (privateGuess module, GoSource.zero), [url1, url2]) -- assume private repo
    else
      (.ok (privateGuess module, GoSource.zero), [url1]) -- assume private repo

/-! ## Helper lemmas on the string model -/

theorem mk_append (a b : List Char) : (⟨a ++ b⟩ : String) = ⟨a⟩ ++ ⟨b⟩ := rfl

theorem goHasPre_iff {s p : String} : goHasPre s p = true ↔ p.data <+: s.data :=
  List.isPrefixOf_iff_prefix

theorem preOf_comparable {l₁ l₂ s : List Char} (h₁ : l₁ <+: s) (h₂ : l₂ <+: s) :
    l₁ <+: l₂ ∨ l₂ <+: l₁ :=
  List.prefix_or_prefix_of_prefix h₁ h₂

/-- Two incomparable prefixes cannot head the same string. -/
theorem goHasPre_excl {s p q : String} (h : goHasPre s p = true)
    (h2 : p.data.isPrefixOf q.data = false) (h3 : q.data.isPrefixOf p.data = false) :
    goHasPre s q = false := by
  by_contra hq
  rw [Bool.not_eq_false] at hq
  rcases preOf_comparable (goHasPre_iff.mp h) (goHasPre_iff.mp hq) with hc | hc
  · rw [List.isPrefixOf_iff_prefix.mpr hc] at h2; exact Bool.true_eq_false.mp h2
  · rw [List.isPrefixOf_iff_prefix.mpr hc] at h3; exact Bool.true_eq_false.mp h3

theorem goHasPre_append {s t p : String} (h : goHasPre s p = true) :
    goHasPre (s ++ t) p = true := by
  rw [goHasPre_iff] at h ⊢
  rw [String.data_append]
  exact h.trans (List.prefix_append s.data t.data)

theorem goTrimPre_append {p x : String} : goTrimPre (p ++ x) p = x := by
  have h : goHasPre (p ++ x) p = true := by
    rw [goHasPre_iff, String.data_append]; exact List.prefix_append _ _
  simp only [goTrimPre, h, if_true, String.data_append, List.drop_left]

theorem goTrimPre_append_right {s t p : String} (h : goHasPre s p = true) :
    goTrimPre (s ++ t) p = goTrimPre s p ++ t := by
  have h' : goHasPre (s ++ t) p = true := goHasPre_append h
  have hlen : p.data.length ≤ s.data.length := (goHasPre_iff.mp h).length_le
  simp only [goTrimPre, h, h', if_true, String.data_append,
    List.drop_append_of_le_length hlen, mk_append]

theorem goHasSuf_append {x s : String} : goHasSuf (x ++ s) s = true := by
  rw [goHasSuf, String.data_append]
  exact List.isSuffixOf_iff_suffix.mpr (List.suffix_append _ _)

theorem goTrimSuf_append {x s : String} : goTrimSuf (x ++ s) s = x := by
  simp only [goTrimSuf, goHasSuf_append, if_true, String.data_append,
    List.length_append, Nat.add_sub_cancel, List.take_left]

theorem goTrimSuf_of_not_suf {x s : String} (h : goHasSuf x s = false) :
    goTrimSuf x s = x := by
  simp only [goTrimSuf, h, Bool.false_eq_true, if_false]

/-- Trimming a prefix cannot create a suffix that was not there. -/
theorem goHasSuf_goTrimPre {s p suf : String} (h : goHasSuf s suf = false) :
    goHasSuf (goTrimPre s p) suf = false := by
  by_contra hq
  rw [Bool.not_eq_false] at hq
  unfold goTrimPre at hq
  split at hq
  · rw [goHasSuf] at hq h
    have : suf.data <:+ s.data :=
      (List.isSuffixOf_iff_suffix.mp hq).trans (List.drop_suffix _ _)
    rw [List.isSuffixOf_iff_suffix.mpr this] at h
    exact Bool.true_eq_false.mp h
  · rw [hq] at h; exact Bool.true_eq_false.mp h

theorem takeWhile_all {p : Char → Bool} {l : List Char} (h : ∀ x ∈ l, p x = true) :
    l.takeWhile p = l := by
  induction l with
  | nil => rfl
  | cons c cs ih =>
    simp only [List.takeWhile_cons, h c (List.mem_cons_self c cs), if_true]
    rw [ih (fun x hx => h x (List.mem_cons_of_mem c hx))]

theorem takeWhile_append_cons {p : Char → Bool} {l : List Char} {c : Char} {r : List Char}
    (hl : ∀ x ∈ l, p x = true) (hc : p c = false) :
    (l ++ c :: r).takeWhile p = l := by
  induction l with
  | nil => simp [List.takeWhile_cons, hc]
  | cons a as ih =>
    simp only [List.cons_append, List.takeWhile_cons, hl a (List.mem_cons_self a as), if_true]
    rw [ih (fun x hx => hl x (List.mem_cons_of_mem a hx))]

theorem dropWhile_append_cons {p : Char → Bool} {l : List Char} {c : Char} {r : List Char}
    (hl : ∀ x ∈ l, p x = true) (hc : p c = false) :
    (l ++ c :: r).dropWhile p = c :: r := by
  induction l with
  | nil => simp [List.dropWhile_cons, hc]
  | cons a as ih =>
    simp only [List.cons_append, List.dropWhile_cons, hl a (List.mem_cons_self a as), if_true]
    exact ih (fun x hx => hl x (List.mem_cons_of_mem a hx))

theorem dropWhile_all_append {p : Char → Bool} {l : List Char} (r : List Char)
    (h : ∀ x ∈ l, p x = true) : (l ++ r).dropWhile p = r.dropWhile p := by
  induction l with
  | nil => rfl
  | cons a as ih =>
    simp only [List.cons_append, List.dropWhile_cons, h a (List.mem_cons_self a as), if_true]
    exact ih (fun x hx => h x (List.mem_cons_of_mem a hx))

/-! ## Branch lemmas for resolveFileURL -/

theorem resolveFileURL_github {ip v root : String} {gs : GoSource} {file : String}
    (hv : v = "git") (hp : goHasPre root "https://github.com/" = true) :
    resolveFileURL ⟨ip, v, root⟩ gs file =
      .ok (["https://raw.githubusercontent.com/" ++
              goTrimSuf (goTrimPre root "https://github.com/") ".git" ++
              "/main/" ++ file,
            "https://raw.githubusercontent.com/" ++
              goTrimSuf (goTrimPre root "https://github.com/") ".git" ++
              "/master/" ++ file],
           stringDecoderIdentity) := by
  subst hv
  have h1 : goHasPre root "https://go.googlesource.com/" = false :=
    goHasPre_excl hp (by decide) (by decide)
  have h2 : goHasPre root "https://git.sr.ht/" = false :=
    goHasPre_excl hp (by decide) (by decide)
  have h3 : goHasPre root "https://gopkg.in/" = false :=
    goHasPre_excl hp (by decide) (by decide)
  simp only [resolveFileURL, h1, h2, h3, hp, Bool.false_eq_true, if_false, if_true,
    bne_self_eq_false]

theorem resolveFileURL_gitlab {ip v root : String} {gs : GoSource} {file : String}
    (hv : v = "git") (hp : goHasPre root "https://gitlab.com/" = true) :
    resolveFileURL ⟨ip, v, root⟩ gs file =
      .ok ([goTrimSuf root ".git" ++ "/-/raw/main/" ++ file,
            goTrimSuf root ".git" ++ "/-/raw/master/" ++ file],
           stringDecoderIdentity) := by
  subst hv
  have h1 : goHasPre root "https://go.googlesource.com/" = false :=
    goHasPre_excl hp (by decide) (by decide)
  have h2 : goHasPre root "https://git.sr.ht/" = false :=
    goHasPre_excl hp (by decide) (by decide)
  have h3 : goHasPre root "https://gopkg.in/" = false :=
    goHasPre_excl hp (by decide) (by decide)
  have h4 : goHasPre root "https://github.com/" = false :=
    goHasPre_excl hp (by decide) (by decide)
  simp only [resolveFileURL, h1, h2, h3, h4, hp, Bool.false_eq_true, if_false, if_true,
    bne_self_eq_false]

/-! ## Claim C3 -/

/-- C3 counterexample: the claim that every name in `httpLicenseFiles` has a
case-insensitive match in `repoLicenseFiles` is false — the primary path's
"COPYING.md" matches nothing in the API path's list. -/
theorem c3_counterexample :
    "COPYING.md" ∈ httpLicenseFiles ∧
      ∀ n ∈ repoLicenseFiles, eqFold "COPYING.md" n = false := by decide

/-- C3 amended: every file name in `httpLicenseFiles` other than
"COPYING.md" appears, up to case-insensitive equality, in
`repoLicenseFiles`. -/
theorem c3_superset_except_copying_md :
    (httpLicenseFiles.filter (fun f => f != "COPYING.md")).all
      (fun f => repoLicenseFiles.any (fun n => eqFold f n)) = true := by decide

/-! ## Claim C6 -/

/-- C6: for a git GoImport whose repository root is a GitHub-style or
GitLab-style root, resolving any file name succeeds with exactly two
candidate URLs, the first on branch "main" and the second on branch
"master", in that order (with the identity decoder). -/
theorem c6_two_branch_urls (gi : GoImport) (gs : GoSource) (file : String)
    (hv : gi.Vcs = "git")
    (hp : goHasPre gi.RepoRoot "https://github.com/" = true ∨
          goHasPre gi.RepoRoot "https://gitlab.com/" = true) :
    ∃ p, resolveFileURL gi gs file =
      .ok ([p ++ "main/" ++ file, p ++ "master/" ++ file], stringDecoderIdentity) := by
  obtain ⟨ip, v, root⟩ := gi
  rcases hp with hp | hp
  · refine ⟨"https://raw.githubusercontent.com/" ++
      goTrimSuf (goTrimPre root "https://github.com/") ".git" ++ "/",
      ?_⟩
    rw [resolveFileURL_github hv hp]
    rw [show ("/main/" : String) = "/" ++ "main/" from rfl,
        show ("/master/" : String) = "/" ++ "master/" from rfl]
    simp only [String.append_assoc]
  · refine ⟨goTrimSuf root ".git" ++ "/-/raw/", ?_⟩
    rw [resolveFileURL_gitlab hv hp]
    rw [show ("/-/raw/main/" : String) = "/-/raw/" ++ "main/" from rfl,
        show ("/-/raw/master/" : String) = "/-/raw/" ++ "master/" from rfl]
    simp only [String.append_assoc]

/-- C6 witness at a concrete GitHub repository root. -/
theorem c6_witness :
    ∃ p, resolveFileURL ⟨"example.org/x", "git", "https://github.com/example/x"⟩
        GoSource.zero "LICENSE" =
      .ok ([p ++ "main/" ++ "LICENSE", p ++ "master/" ++ "LICENSE"],
           stringDecoderIdentity) :=
  c6_two_branch_urls ⟨"example.org/x", "git", "https://github.com/example/x"⟩
    GoSource.zero "LICENSE" rfl (Or.inl (by decide))

/-! ## Claim C10 -/

/-- C10: for GitHub-style and GitLab-style git repository roots, a trailing
".git" on the repository root is stripped before URL construction: the root
with and without the suffix resolve to exactly the same candidate URL list
and decoder. -/
theorem c10_trailing_git_irrelevant (ip base : String) (gs : GoSource) (file : String)
    (hp : goHasPre base "https://github.com/" = true ∨
          goHasPre base "https://gitlab.com/" = true)
    (hs : goHasSuf base ".git" = false) :
    resolveFileURL ⟨ip, "git", base ++ ".git"⟩ gs file =
      resolveFileURL ⟨ip, "git", base⟩ gs file := by
  rcases hp with hp | hp
  · have hp' : goHasPre (base ++ ".git") "https://github.com/" = true := goHasPre_append hp
    rw [resolveFileURL_github rfl hp, resolveFileURL_github rfl hp']
    rw [goTrimPre_append_right hp, goTrimSuf_append,
        goTrimSuf_of_not_suf (goHasSuf_goTrimPre hs)]
  · have hp' : goHasPre (base ++ ".git") "https://gitlab.com/" = true := goHasPre_append hp
    rw [resolveFileURL_gitlab rfl hp, resolveFileURL_gitlab rfl hp']
    rw [goTrimSuf_append, goTrimSuf_of_not_suf hs]

/-- C10 witness: concrete GitLab root with and without ".git" resolve
identically. -/
theorem c10_witness :
    resolveFileURL ⟨"example.org/x", "git", "https://gitlab.com/example/x" ++ ".git"⟩
        GoSource.zero "LICENSE" =
      resolveFileURL ⟨"example.org/x", "git", "https://gitlab.com/example/x"⟩
        GoSource.zero "LICENSE" :=
  c10_trailing_git_irrelevant "example.org/x" "https://gitlab.com/example/x"
    GoSource.zero "LICENSE" (Or.inr (by decide)) (by decide)

/-! ## Claim C7 -/

theorem splitN_cons {c : Char} {n : Nat} {l r : List Char} (h : ∀ x ∈ l, x ≠ c) :
    splitNChar c (n + 2) (l ++ c :: r) = l :: splitNChar c (n + 1) r := by
  have hl : ∀ x ∈ l, (x != c) = true := fun x hx => bne_iff_ne.mpr (h x hx)
  have hc : (c != c) = false := by simp
  simp only [splitNChar, takeWhile_append_cons hl hc]
  rw [List.drop_left]

theorem mem_of_mem_splitN {c : Char} {n : Nat} {l part : List Char}
    (hp : part ∈ splitNChar c n l) {x : Char} (hx : x ∈ part) : x ∈ l := by
  induction n generalizing l part with
  | zero => simp [splitNChar] at hp
  | succ n ih =>
    match n with
    | 0 =>
      simp only [splitNChar, List.mem_singleton] at hp
      exact hp ▸ hx
    | m + 1 =>
      simp only [splitNChar] at hp
      rcases hd : l.drop (l.takeWhile (fun x => x != c)).length with _ | ⟨y, tail⟩
      · rw [hd] at hp
        simp only [List.mem_singleton] at hp
        exact hp ▸ hx
      · rw [hd] at hp
        rcases List.mem_cons.mp hp with rfl | hp'
        · exact (List.takeWhile_prefix _).subset hx
        · have : x ∈ tail := ih hp' hx
          have htail : x ∈ l.drop (l.takeWhile (fun x => x != c)).length := by
            rw [hd]; exact List.mem_cons_of_mem y this
          exact List.drop_subset _ _ htail

theorem findIdx_go {p : Char → Bool} {l : List Char} {c : Char} {r : List Char}
    (hl : ∀ x ∈ l, p x = false) (hc : p c = true) :
    ∀ i, List.findIdx? p (l ++ c :: r) i = some (i + l.length) := by
  induction l with
  | nil => intro i; simp [List.findIdx?_cons, hc]
  | cons a as ih =>
    intro i
    simp only [List.cons_append, List.findIdx?_cons, hl a (List.mem_cons_self a as),
      Bool.false_eq_true, if_false]
    rw [ih (fun x hx => hl x (List.mem_cons_of_mem a hx)) (i + 1)]
    simp only [List.length_cons]
    congr 1
    omega

theorem findIdx_append_first {p : Char → Bool} {l : List Char} {c : Char} {r : List Char}
    (hl : ∀ x ∈ l, p x = false) (hc : p c = true) :
    (l ++ c :: r).findIdx? p = some l.length := by
  have h := findIdx_go (r := r) hl hc 0
  simpa using h

theorem mem_goTrimPre {s p : String} {x : Char} (h : x ∈ (goTrimPre s p).data) :
    x ∈ s.data := by
  unfold goTrimPre at h
  split at h
  · exact List.drop_subset _ _ h
  · exact h

theorem resolveFileURL_gopkg {ip v root : String} {gs : GoSource} {file : String}
    (hv : v = "git") (hp : goHasPre root "https://gopkg.in/" = true) :
    resolveFileURL ⟨ip, v, root⟩ gs file =
      (match splitNChar '/' 4 (goTrimPre gs.Directory "https://github.com/").data with
       | [user, repo, _p2, rest] =>
         match rest.findIdx? (fun c => c == '{') with
         | none => .error .gopkgParseError
         | some idx =>
           .ok (["https://raw.githubusercontent.com/" ++ (⟨user⟩ : String) ++ "/" ++
                   (⟨repo⟩ : String) ++ "/" ++ (⟨rest.take idx⟩ : String) ++ "/" ++ file],
                stringDecoderIdentity)
       | _ => .error .gopkgParseError) := by
  subst hv
  have h1 : goHasPre root "https://go.googlesource.com/" = false :=
    goHasPre_excl hp (by decide) (by decide)
  have h2 : goHasPre root "https://git.sr.ht/" = false :=
    goHasPre_excl hp (by decide) (by decide)
  simp only [resolveFileURL, h1, h2, hp, Bool.false_eq_true, if_false, if_true,
    bne_self_eq_false]

/-- C7: for a git gopkg.in repository root, a well-formed go-source
directory template `https://github.com/OWNER/REPO/tree/BRANCH{/dir}` yields
exactly one candidate URL `https://raw.githubusercontent.com/OWNER/REPO/BRANCH/<file>`;
and the gopkg.in template-parse error is returned exactly when the
directory template is malformed — when, after stripping the github prefix,
it does not split into four `/`-separated parts whose fourth contains a `{`
placeholder — so every malformed template (too few parts, a misplaced
brace, or no brace at all) fails with that error rather than yielding an
empty or partial URL list; in particular the absent (zero value, empty)
template fails with it. -/
theorem c7_gopkg_template (gi : GoImport) (gs : GoSource) (file owner repo branch : String)
    (hv : gi.Vcs = "git") (hp : goHasPre gi.RepoRoot "https://gopkg.in/" = true) :
    ((gs.Directory =
        "https://github.com/" ++ owner ++ "/" ++ repo ++ "/tree/" ++ branch ++ "{/dir}" →
      (∀ c ∈ owner.data, c ≠ '/') → (∀ c ∈ repo.data, c ≠ '/') →
      (∀ c ∈ branch.data, c ≠ '{') →
      resolveFileURL gi gs file =
        .ok (["https://raw.githubusercontent.com/" ++ owner ++ "/" ++ repo ++ "/" ++
                branch ++ "/" ++ file],
             stringDecoderIdentity)) ∧
     (resolveFileURL gi gs file = .error .gopkgParseError ↔
       ∀ u r p2 rest, splitNChar '/' 4 (goTrimPre gs.Directory "https://github.com/").data =
           [u, r, p2, rest] →
         rest.findIdx? (fun c => c == '{') = none) ∧
     (gs.Directory = "" → resolveFileURL gi gs file = .error .gopkgParseError)) := by
  obtain ⟨ip, v, root⟩ := gi
  refine ⟨?_, ?_, ?_⟩
  · intro hdir hO hR hB
    rw [resolveFileURL_gopkg hv hp]
    rw [hdir]
    rw [show ("https://github.com/" ++ owner ++ "/" ++ repo ++ "/tree/" ++ branch ++ "{/dir}" : String)
          = "https://github.com/" ++ (owner ++ ("/" ++ (repo ++ ("/tree/" ++ (branch ++ "{/dir}")))))
        from by simp only [String.append_assoc]]
    rw [goTrimPre_append]
    have hdata : (owner ++ ("/" ++ (repo ++ ("/tree/" ++ (branch ++ "{/dir}"))))).data =
        owner.data ++ '/' :: (repo.data ++
          '/' :: ('t' :: 'r' :: 'e' :: 'e' :: '/' :: (branch.data ++
            '{' :: ('/' :: 'd' :: 'i' :: 'r' :: '}' :: [])))) := by
      simp only [String.data_append]
      rfl
    rw [hdata]
    rw [splitN_cons hO]
    rw [show (repo.data ++ '/' :: ('t' :: 'r' :: 'e' :: 'e' :: '/' :: (branch.data ++
          '{' :: ('/' :: 'd' :: 'i' :: 'r' :: '}' :: [])))) =
        repo.data ++ '/' :: (('t' :: 'r' :: 'e' :: 'e' :: []) ++ '/' :: (branch.data ++
          '{' :: ('/' :: 'd' :: 'i' :: 'r' :: '}' :: []))) from by simp]
    rw [splitN_cons hR]
    rw [splitN_cons (l := 't' :: 'r' :: 'e' :: 'e' :: []) (by decide)]
    have hfind : (branch.data ++ '{' :: ('/' :: 'd' :: 'i' :: 'r' :: '}' :: [])).findIdx?
        (fun c => c == '{') = some branch.data.length :=
      findIdx_append_first (fun x hx => by simpa using hB x hx) (by decide)
    simp only [splitNChar, hfind]
    rw [List.take_left]
  · rw [resolveFileURL_gopkg hv hp]
    rcases hparts : splitNChar '/' 4 (goTrimPre gs.Directory "https://github.com/").data
      with _ | ⟨u, _ | ⟨r, _ | ⟨p2, _ | ⟨rest, _ | ⟨x, tail⟩⟩⟩⟩⟩
    · exact iff_of_true rfl (by intro u' r' p2' rest' heq; simp at heq)
    · exact iff_of_true rfl (by intro u' r' p2' rest' heq; simp at heq)
    · exact iff_of_true rfl (by intro u' r' p2' rest' heq; simp at heq)
    · exact iff_of_true rfl (by intro u' r' p2' rest' heq; simp at heq)
    · show (match rest.findIdx? (fun c => c == '{') with
            | none => (Except.error Err.gopkgParseError :
                Except Err (List String × (String → Except String String)))
            | some idx =>
              Except.ok (["https://raw.githubusercontent.com/" ++ (⟨u⟩ : String) ++ "/" ++
                  (⟨r⟩ : String) ++ "/" ++ (⟨rest.take idx⟩ : String) ++ "/" ++ file],
                stringDecoderIdentity)) = Except.error Err.gopkgParseError ↔ _
      rcases hfind : rest.findIdx? (fun c => c == '{') with _ | idx
      · refine iff_of_true rfl ?_
        intro u' r' p2' rest' heq
        simp only [List.cons.injEq, and_true] at heq
        obtain ⟨-, -, -, hre⟩ := heq
        rw [← hre]
        exact hfind
      · refine iff_of_false (fun h => Except.noConfusion h) ?_
        intro h
        have h4 := h u r p2 rest rfl
        rw [hfind] at h4
        exact Option.noConfusion h4
    · exact iff_of_true rfl (by intro u' r' p2' rest' heq; simp at heq)
  · intro hdir
    rw [resolveFileURL_gopkg hv hp, hdir]
    rfl

/-- C7 witness: the lumberjack-style valid template resolves to its single
URL; the malformed templates `https://github.com/a/b{/dir}` (too few parts)
and `https://github.com/a/b/tree{/dir}` (brace outside the fourth part) and
the absent (empty) template all fail with the gopkg.in parse error. -/
theorem c7_witness :
    (resolveFileURL ⟨"gopkg.in/natefinch/lumberjack.v2", "git", "https://gopkg.in/natefinch/lumberjack.v2"⟩
        ⟨"gopkg.in/natefinch/lumberjack.v2", "_",
         "https://github.com/natefinch/lumberjack/tree/v2.1{/dir}", "f"⟩ "LICENSE" =
      .ok (["https://raw.githubusercontent.com/" ++ "natefinch" ++ "/" ++ "lumberjack" ++ "/" ++
              "v2.1" ++ "/" ++ "LICENSE"],
           stringDecoderIdentity)) ∧
    (resolveFileURL ⟨"gopkg.in/a/b.v1", "git", "https://gopkg.in/a/b.v1"⟩
        ⟨"gopkg.in/a/b.v1", "_", "https://github.com/a/b{/dir}", "f"⟩ "LICENSE" =
      .error .gopkgParseError) ∧
    (resolveFileURL ⟨"gopkg.in/a/b.v1", "git", "https://gopkg.in/a/b.v1"⟩
        ⟨"gopkg.in/a/b.v1", "_", "https://github.com/a/b/tree{/dir}", "f"⟩ "LICENSE" =
      .error .gopkgParseError) ∧
    (resolveFileURL ⟨"gopkg.in/a/b.v1", "git", "https://gopkg.in/a/b.v1"⟩
        ⟨"gopkg.in/a/b.v1", "_", "", ""⟩ "LICENSE" =
      .error .gopkgParseError) :=
  ⟨(c7_gopkg_template _ _ "LICENSE" "natefinch" "lumberjack" "v2.1" rfl (by decide)).1
     rfl (by decide) (by decide) (by decide),
   (c7_gopkg_template _ _ "LICENSE" "" "" "" rfl (by decide)).2.1.mpr
     (by intro u r p2 rest heq
         rw [show splitNChar '/' 4
               (goTrimPre "https://github.com/a/b{/dir}" "https://github.com/").data =
             [['a'], ['b', '{'], ['d', 'i', 'r', '}']] from rfl] at heq
         simp at heq),
   (c7_gopkg_template _ _ "LICENSE" "" "" "" rfl (by decide)).2.1.mpr
     (by intro u r p2 rest heq
         rw [show splitNChar '/' 4
               (goTrimPre "https://github.com/a/b/tree{/dir}" "https://github.com/").data =
             [['a'], ['b'], ['t', 'r', 'e', 'e', '{'], ['d', 'i', 'r', '}']] from rfl] at heq
         simp only [List.cons.injEq, and_true] at heq
         obtain ⟨-, -, -, hre⟩ := heq
         rw [← hre]
         decide),
   (c7_gopkg_template _ _ "LICENSE" "" "" "" rfl (by decide)).2.2 rfl⟩

/-! ## Claims C2 and C8: the primary fetch strategy -/

/-- If every URL in the list fails to fetch, the URL loop falls through. -/
theorem tryUrls_none {env : Env} {dec : String → Except String String} {urls : List String}
    (h : ∀ u ∈ urls, ∃ m, env.httpGet none u = .error m) :
    tryUrls env dec urls = none := by
  induction urls with
  | nil => rfl
  | cons u rest ih =>
    obtain ⟨m, hm⟩ := h u (List.mem_cons_self u rest)
    simp only [tryUrls, hm]
    exact ih (fun v hv => h v (List.mem_cons_of_mem u hv))

/-- A block of file names whose URLs all fail to fetch is skipped. -/
theorem tryGetLicense_skip {env : Env} {module : String} {gi : GoImport} {gs : GoSource}
    {fs₁ rest : List String}
    (h : ∀ g ∈ fs₁, ∃ urls dec, resolveFileURL gi gs g = .ok (urls, dec) ∧
      ∀ u ∈ urls, ∃ m, env.httpGet none u = .error m) :
    tryGetLicense env module gi gs (fs₁ ++ rest) = tryGetLicense env module gi gs rest := by
  induction fs₁ with
  | nil => rfl
  | cons f fs ih =>
    obtain ⟨urls, dec, hres, hurls⟩ := h f (List.mem_cons_self f fs)
    simp only [List.cons_append, tryGetLicense, hres, tryUrls_none hurls]
    exact ih (fun g hg => h g (List.mem_cons_of_mem f hg))

/-- URLs that fail to fetch ahead of a given URL are skipped inside a file
name's URL list. -/
theorem tryUrls_skip {env : Env} {dec : String → Except String String}
    {us₁ : List String} {u : String} {us₂ : List String}
    (h : ∀ v ∈ us₁, ∃ m, env.httpGet none v = .error m) :
    tryUrls env dec (us₁ ++ u :: us₂) = tryUrls env dec (u :: us₂) := by
  induction us₁ with
  | nil => rfl
  | cons v vs ih =>
    obtain ⟨m, hm⟩ := h v (List.mem_cons_self v vs)
    simp only [List.cons_append, tryUrls, hm]
    exact ih (fun w hw => h w (List.mem_cons_of_mem v hw))

/-- C2: in the primary fetch strategy, when some candidate URL fetch
succeeds but the decoder fails on the fetched content, the whole operation
returns the decode error immediately — later URLs and later file names are
never consulted — and this error is distinct from the exhaustion error. -/
theorem c2_decode_failure_aborts (env : Env) (module : String) (gi : GoImport)
    (gs : GoSource) (fs₁ : List String) (f : String) (fs₂ : List String)
    (us₁ : List String) (u : String) (us₂ : List String)
    (dec : String → Except String String) (d e : String)
    (hskip : ∀ g ∈ fs₁, ∃ urls dec', resolveFileURL gi gs g = .ok (urls, dec') ∧
      ∀ v ∈ urls, ∃ m, env.httpGet none v = .error m)
    (hres : resolveFileURL gi gs f = .ok (us₁ ++ u :: us₂, dec))
    (hus : ∀ v ∈ us₁, ∃ m, env.httpGet none v = .error m)
    (hu : env.httpGet none u = .ok d)
    (hd : dec d = .error e) :
    tryGetLicense env module gi gs (fs₁ ++ f :: fs₂) = .error (.errorDecoding u e) ∧
      Err.errorDecoding u e ≠ Err.noLicenseFound module := by
  constructor
  · rw [tryGetLicense_skip hskip]
    simp only [tryGetLicense, hres, tryUrls_skip hus, tryUrls, hu, hd]
  · intro hcontra
    exact Err.noConfusion hcontra

/-- C2 witness: a googlesource root (base64 decoder) whose fetch returns
content that is not valid base64 aborts with a decode error. -/
theorem c2_witness :
    tryGetLicense
        ⟨fun _ _ => .ok "!!!!", fun _ => .error "e", fun _ => .error "e", ⟨"", ""⟩⟩
        "m" ⟨"m", "git", "https://go.googlesource.com/text"⟩ GoSource.zero
        ["NOTICE", "LICENSE"] =
      .error (.errorDecoding
        "https://go.googlesource.com/text/+/refs/heads/master/NOTICE?format=text"
        "illegal base64 data") ∧
      Err.errorDecoding
        "https://go.googlesource.com/text/+/refs/heads/master/NOTICE?format=text"
        "illegal base64 data" ≠ Err.noLicenseFound "m" :=
  c2_decode_failure_aborts
    ⟨fun _ _ => .ok "!!!!", fun _ => .error "e", fun _ => .error "e", ⟨"", ""⟩⟩
    "m" ⟨"m", "git", "https://go.googlesource.com/text"⟩ GoSource.zero
    [] "NOTICE" ["LICENSE"] []
    "https://go.googlesource.com/text/+/refs/heads/master/NOTICE?format=text" []
    stringDecoderBase64 "!!!!" "illegal base64 data"
    (fun g hg => absurd hg (List.not_mem_nil g))
    rfl
    (fun v hv => absurd hv (List.not_mem_nil v))
    rfl rfl

/-- C8: the primary fetch strategy tries file names in the fixed order of
its candidate list — in which "NOTICE" is first and "LICENSE" second — and
returns the trimmed decoded content of the first file name with a
successfully fetching and decoding URL, regardless of what any later file
name would have produced. -/
theorem c8_first_success_wins (env : Env) (module : String) (gi : GoImport)
    (gs : GoSource) (fs₁ : List String) (f : String) (fs₂ : List String)
    (us₁ : List String) (u : String) (us₂ : List String)
    (dec : String → Except String String) (d c : String)
    (hskip : ∀ g ∈ fs₁, ∃ urls dec', resolveFileURL gi gs g = .ok (urls, dec') ∧
      ∀ v ∈ urls, ∃ m, env.httpGet none v = .error m)
    (hres : resolveFileURL gi gs f = .ok (us₁ ++ u :: us₂, dec))
    (hus : ∀ v ∈ us₁, ∃ m, env.httpGet none v = .error m)
    (hu : env.httpGet none u = .ok d)
    (hd : dec d = .ok c) :
    tryGetLicense env module gi gs (fs₁ ++ f :: fs₂) = .ok (goTrimSpace c) ∧
      httpLicenseFiles.take 2 = ["NOTICE", "LICENSE"] := by
  constructor
  · rw [tryGetLicense_skip hskip]
    simp only [tryGetLicense, hres, tryUrls_skip hus, tryUrls, hu, hd]
  · rfl

/-- A concrete environment for the C8 witness: only the main-branch LICENSE
raw URL of one GitHub repository fetches successfully. -/
def env8 : Env :=
  ⟨fun _ url =>
    if url == "https://raw.githubusercontent.com/example/x/main/LICENSE" then .ok "  MIT  "
    else .error "404",
   fun _ => .error "e", fun _ => .error "e", ⟨"", ""⟩⟩

/-- C8 witness: "NOTICE" is tried first and fails on both branches, then
"LICENSE" succeeds on the main branch and its trimmed content is returned. -/
theorem c8_witness :
    tryGetLicense env8 "m" ⟨"example.org/x", "git", "https://github.com/example/x"⟩
        GoSource.zero ["NOTICE", "LICENSE"] = .ok "MIT" ∧
      httpLicenseFiles.take 2 = ["NOTICE", "LICENSE"] :=
  c8_first_success_wins env8 "m" ⟨"example.org/x", "git", "https://github.com/example/x"⟩
    GoSource.zero ["NOTICE"] "LICENSE" [] []
    "https://raw.githubusercontent.com/example/x/main/LICENSE"
    ["https://raw.githubusercontent.com/example/x/master/LICENSE"]
    stringDecoderIdentity "  MIT  " "  MIT  "
    (fun g hg => by
      have hgE : g = "NOTICE" := List.mem_singleton.mp hg
      subst hgE
      refine ⟨["https://raw.githubusercontent.com/example/x/main/NOTICE",
               "https://raw.githubusercontent.com/example/x/master/NOTICE"],
              stringDecoderIdentity, rfl, ?_⟩
      intro v hv
      rcases List.mem_cons.mp hv with rfl | hv'
      · exact ⟨"404", rfl⟩
      · rcases List.mem_singleton.mp hv' with rfl
        exact ⟨"404", rfl⟩)
    rfl
    (fun v hv => absurd hv (List.not_mem_nil v))
    rfl rfl

/-! ## Claims C1 and C4: the accelerated API path -/

theorem scanTree_no_match {env : Env} {gi : GoImport} {tree : List APITree}
    (h : ∀ t ∈ tree, entryMatches t = false) :
    scanTree env gi tree = .fail true .apiNoLicenseFound := by
  induction tree with
  | nil => rfl
  | cons t rest ih =>
    simp only [scanTree, h t (List.mem_cons_self t rest), Bool.false_eq_true, if_false]
    exact ih (fun t' ht' => h t' (List.mem_cons_of_mem t ht'))

theorem scanTree_first_match {env : Env} {gi : GoImport} {pre : List APITree}
    {t : APITree} {post : List APITree}
    (hpre : ∀ t' ∈ pre, entryMatches t' = false) (ht : entryMatches t = true) :
    scanTree env gi (pre ++ t :: post) = fetchBlob env gi t := by
  induction pre with
  | nil => simp only [List.nil_append, scanTree, ht, if_true]
  | cons q qs ih =>
    simp only [List.cons_append, scanTree, hpre q (List.mem_cons_self q qs),
      Bool.false_eq_true, if_false]
    exact ih (fun t' ht' => hpre t' (List.mem_cons_of_mem q ht'))

/-- C1: under the accelerated API path conditions (git VCS, GitHub root,
credentials set), a transport error on the tree request, a tree JSON parse
error, a transport error on the blob request, or a blob JSON parse error
each make `getLicense` fall through to the primary per-file-name strategy;
whereas a successfully fetched and parsed tree listing in which no blob
entry case-insensitively matches any conventional license name is a
terminal error for the module, with no fallback. -/
theorem c1_api_failure_asymmetry (env : Env) (module : String) (gi : GoImport)
    (gs : GoSource)
    (hacc : (gi.Vcs == "git" && goHasPre gi.RepoRoot "https://github.com/" &&
             env.githubAuth.IsSet) = true) :
    ((∀ msg, env.httpGet (some env.githubAuth) (apiTreeURL gi) = .error msg →
        getLicense env module gi gs = tryGetLicense env module gi gs httpLicenseFiles) ∧
     (∀ data msg, env.httpGet (some env.githubAuth) (apiTreeURL gi) = .ok data →
        env.unmarshalTree data = .error msg →
        getLicense env module gi gs = tryGetLicense env module gi gs httpLicenseFiles) ∧
     (∀ data tree pre t post msg,
        env.httpGet (some env.githubAuth) (apiTreeURL gi) = .ok data →
        env.unmarshalTree data = .ok tree →
        tree = pre ++ t :: post →
        (∀ t' ∈ pre, entryMatches t' = false) → entryMatches t = true →
        env.httpGet (some env.githubAuth) t.Url = .error msg →
        getLicense env module gi gs = tryGetLicense env module gi gs httpLicenseFiles) ∧
     (∀ data tree pre t post bdata msg,
        env.httpGet (some env.githubAuth) (apiTreeURL gi) = .ok data →
        env.unmarshalTree data = .ok tree →
        tree = pre ++ t :: post →
        (∀ t' ∈ pre, entryMatches t' = false) → entryMatches t = true →
        env.httpGet (some env.githubAuth) t.Url = .ok bdata →
        env.unmarshalBlob bdata = .error msg →
        getLicense env module gi gs = tryGetLicense env module gi gs httpLicenseFiles) ∧
     (∀ data tree,
        env.httpGet (some env.githubAuth) (apiTreeURL gi) = .ok data →
        env.unmarshalTree data = .ok tree →
        (∀ t ∈ tree, entryMatches t = false) →
        getLicense env module gi gs = .error (.apiError .apiNoLicenseFound))) := by
  refine ⟨?_, ?_, ?_, ?_, ?_⟩
  · intro msg h1
    simp only [getLicense, hacc, if_true, apiGetLicense, h1, Bool.false_eq_true, if_false]
  · intro data msg h1 h2
    simp only [getLicense, hacc, if_true, apiGetLicense, h1, h2, Bool.false_eq_true, if_false]
  · intro data tree pre t post msg h1 h2 h3 hpre ht hblob
    subst h3
    simp only [getLicense, hacc, if_true, apiGetLicense, h1, h2,
      scanTree_first_match hpre ht, fetchBlob, hblob, Bool.false_eq_true, if_false]
  · intro data tree pre t post bdata msg h1 h2 h3 hpre ht hblob hum
    subst h3
    simp only [getLicense, hacc, if_true, apiGetLicense, h1, h2,
      scanTree_first_match hpre ht, fetchBlob, hblob, hum, Bool.false_eq_true, if_false]
  · intro data tree h1 h2 hnone
    simp only [getLicense, hacc, if_true, apiGetLicense, h1, h2,
      scanTree_no_match hnone, if_true]

/-- A concrete offline environment: every request fails at transport. -/
def envOff : Env :=
  ⟨fun _ _ => .error "offline", fun _ => .error "bad json", fun _ => .error "bad json",
   ⟨"user", "token"⟩⟩

/-- C1 witness: with credentials set and the tree request failing at
transport, getLicense falls through to the primary strategy. -/
theorem c1_witness :
    getLicense envOff "example.org/x" ⟨"example.org/x", "git", "https://github.com/example/x"⟩
        GoSource.zero =
      tryGetLicense envOff "example.org/x"
        ⟨"example.org/x", "git", "https://github.com/example/x"⟩ GoSource.zero
        httpLicenseFiles :=
  (c1_api_failure_asymmetry envOff "example.org/x"
    ⟨"example.org/x", "git", "https://github.com/example/x"⟩ GoSource.zero (by decide)).1
    "offline" rfl

/-! ## Claim C4 -/

/-- A concrete environment whose API tree lists a LICENSE blob whose blob
response declares the unknown encoding "weird", while on the primary path
the main-branch NOTICE raw URL fetches successfully. -/
def env4 : Env :=
  ⟨fun auth url =>
    match auth with
    | some _ =>
      if url == "https://api.github.com/repos/example/x/git/trees/HEAD" then .ok "TREE"
      else if url == "blob-url" then .ok "BLOB"
      else .error "404"
    | none =>
      if url == "https://raw.githubusercontent.com/example/x/main/NOTICE" then .ok "MIT"
      else .error "404",
   fun s => if s == "TREE" then .ok [⟨"LICENSE", "blob", "blob-url"⟩] else .error "bad",
   fun s => if s == "BLOB" then .ok ⟨"payload", "weird"⟩ else .error "bad",
   ⟨"user", "token"⟩⟩

/-- C4 counterexample: the claim says an unknown blob encoding is a hard
failure with no fallback, but here the blob declares encoding "weird" and
`getLicense` nevertheless falls back to the primary strategy and succeeds. -/
theorem c4_counterexample :
    apiGetLicense env4 ⟨"example.org/x", "git", "https://github.com/example/x"⟩ =
        .fail false (.unknownEncoding "weird") ∧
      getLicense env4 "example.org/x"
        ⟨"example.org/x", "git", "https://github.com/example/x"⟩ GoSource.zero =
        .ok "MIT" := by
  constructor
  · rfl
  · rfl

/-- C4 amended: an unknown blob encoding makes the accelerated API attempt
fail non-terminally (`missing` is not set), so `getLicense` falls through to
the primary per-file-name fetch strategy, exactly as for transport and
parse failures. -/
theorem c4_unknown_encoding_falls_through (env : Env) (module : String) (gi : GoImport)
    (gs : GoSource) (data : String) (tree : List APITree) (pre : List APITree)
    (t : APITree) (post : List APITree) (bdata : String) (blob : APIBlob)
    (hacc : (gi.Vcs == "git" && goHasPre gi.RepoRoot "https://github.com/" &&
             env.githubAuth.IsSet) = true)
    (h1 : env.httpGet (some env.githubAuth) (apiTreeURL gi) = .ok data)
    (h2 : env.unmarshalTree data = .ok tree)
    (h3 : tree = pre ++ t :: post)
    (hpre : ∀ t' ∈ pre, entryMatches t' = false) (ht : entryMatches t = true)
    (h4 : env.httpGet (some env.githubAuth) t.Url = .ok bdata)
    (h5 : env.unmarshalBlob bdata = .ok blob)
    (h6 : eqFold blob.Encoding "utf-8" = false)
    (h7 : eqFold blob.Encoding "base64" = false) :
    getLicense env module gi gs = tryGetLicense env module gi gs httpLicenseFiles := by
  subst h3
  simp only [getLicense, hacc, if_true, apiGetLicense, h1, h2,
    scanTree_first_match hpre ht, fetchBlob, h4, h5, h6, h7,
    Bool.false_eq_true, if_false]

/-- C4 witness for the amended claim, at the concrete environment of the
counterexample. -/
theorem c4_witness :
    getLicense env4 "example.org/x" ⟨"example.org/x", "git", "https://github.com/example/x"⟩
        GoSource.zero =
      tryGetLicense env4 "example.org/x"
        ⟨"example.org/x", "git", "https://github.com/example/x"⟩ GoSource.zero
        httpLicenseFiles :=
  c4_unknown_encoding_falls_through env4 "example.org/x"
    ⟨"example.org/x", "git", "https://github.com/example/x"⟩ GoSource.zero
    "TREE" [⟨"LICENSE", "blob", "blob-url"⟩] [] ⟨"LICENSE", "blob", "blob-url"⟩ []
    "BLOB" ⟨"payload", "weird"⟩
    (by decide) rfl rfl rfl
    (fun t' ht' => absurd ht' (List.not_mem_nil t'))
    (by decide) rfl rfl (by decide) (by decide)

/-! ## Claim C9: lookup -/

/-- C9: when the first discovery request fails at transport, lookup retries
against the three-segment module root only when the module path has more
than three slash-delimited segments; whenever every attempted discovery
request fails, lookup returns the synthesized private-repository guess
`GoImport{module, "git", "https://<module>.git"}` with the zero GoSource
and no error; and when the first request succeeds no retry is issued. -/
theorem c9_lookup_fallback (env : Env) (module : String) :
    ((∀ msg, env.httpGet none (discoveryURL module) = .error msg →
       (((goSplitSlash module).length ≤ 3 →
          lookup env module =
            (.ok (privateGuess module, GoSource.zero), [discoveryURL module])) ∧
        ((goSplitSlash module).length > 3 →
          ∀ msg2, env.httpGet none (discoveryURL (moduleRoot module)) = .error msg2 →
            lookup env module =
              (.ok (privateGuess module, GoSource.zero),
               [discoveryURL module, discoveryURL (moduleRoot module)])))) ∧
     (∀ data, env.httpGet none (discoveryURL module) = .ok data →
       (lookup env module).2 = [discoveryURL module])) := by
  constructor
  · intro msg h1
    constructor
    · intro hlen
      have hnot : ¬ (goSplitSlash module).length > 3 := by omega
      simp only [lookup, h1, hnot, if_false]
    · intro hlen msg2 h2
      simp only [lookup, h1, h2, hlen, if_true]
  · intro data h1
    simp only [lookup, h1]

/-- C9 witness: a four-segment module with all discovery requests failing
yields the private-repository guess after retrying the module root. -/
theorem c9_witness :
    lookup envOff "example.org/a/b/c" =
      (.ok (privateGuess "example.org/a/b/c", GoSource.zero),
       [discoveryURL "example.org/a/b/c", discoveryURL (moduleRoot "example.org/a/b/c")]) :=
  ((c9_lookup_fallback envOff "example.org/a/b/c").1 "offline" rfl).2 (by decide)
    "offline" rfl

/-! ## Claim C5: whitespace tolerance of the extractors -/

/-- A (possibly empty) run of regex whitespace. -/
def wsOnly (w : String) : Prop := ∀ c ∈ w.data, reIsSpace c = true

/-- A well-formed directive token: nonempty, no whitespace, no quote. -/
def tokenOK (t : String) : Prop :=
  t.data ≠ [] ∧ ∀ c ∈ t.data, reIsSpace c = false ∧ c ≠ '"'

instance (w : String) : Decidable (wsOnly w) := by unfold wsOnly; infer_instance

instance (t : String) : Decidable (tokenOK t) := by unfold tokenOK; infer_instance

theorem litCI_self (l r : List Char) : litCI l (l ++ r) = some r := by
  induction l with
  | nil => rfl
  | cons c cs ih =>
    simp only [List.cons_append, litCI, lowerEq, beq_self_eq_true, if_true]
    exact ih

/-- One literal step of the matchers: leading regex whitespace is skipped
and a case-matching literal is consumed. -/
theorem step_lit {w : List Char} (hw : ∀ c ∈ w, reIsSpace c = true)
    {l : List Char} {c : Char} {l' : List Char} (hl : l = c :: l') (hc : reIsSpace c = false)
    (r : List Char) :
    litCI l (wsStar (w ++ (l ++ r))) = some r := by
  subst hl
  have he : w ++ ((c :: l') ++ r) = w ++ (c :: (l' ++ r)) := by simp
  rw [he]
  show litCI (c :: l') ((w ++ (c :: (l' ++ r))).dropWhile reIsSpace) = some r
  rw [dropWhile_append_cons hw hc]
  simp only [litCI, lowerEq, beq_self_eq_true, if_true]
  exact litCI_self l' r

/-- One `(\S+)\s+` step. -/
theorem tokWS_step {t : List Char} (ht1 : t ≠ []) (ht2 : ∀ c ∈ t, reIsSpace c = false)
    {s : List Char} (hs1 : s ≠ []) (hs2 : ∀ c ∈ s, reIsSpace c = true)
    {u : List Char} {c : Char} {r : List Char} (hu : u = c :: r) (hc : reIsSpace c = false) :
    tokWS (t ++ (s ++ u)) = some (⟨t⟩, u) := by
  subst hu
  rcases s with _ | ⟨s0, s'⟩
  · exact absurd rfl hs1
  have hs0 : reIsSpace s0 = true := hs2 s0 (List.mem_cons_self s0 s')
  have hs' : ∀ x ∈ s', reIsSpace x = true := fun x hx => hs2 x (List.mem_cons_of_mem s0 hx)
  have htw : (t ++ (s0 :: s' ++ (c :: r))).takeWhile (fun x => !reIsSpace x) = t := by
    have he : t ++ (s0 :: s' ++ (c :: r)) = t ++ s0 :: (s' ++ (c :: r)) := by simp
    rw [he]
    exact takeWhile_append_cons (fun x hx => by rw [ht2 x hx]; rfl) (by rw [hs0]; rfl)
  have hne : t.isEmpty = false := by
    cases t
    · exact absurd rfl ht1
    · rfl
  simp only [tokWS, htw, hne, Bool.false_eq_true, if_false, List.drop_left]
  have he : s0 :: s' ++ (c :: r) = s0 :: (s' ++ (c :: r)) := by simp
  rw [he]
  simp only [wsPlus, hs0, if_true]
  rw [dropWhile_append_cons hs' hc]

/-- One `(\S+) ` step (single-space separator, as in go-source content). -/
theorem tokSP_step {t : List Char} (ht1 : t ≠ []) (ht2 : ∀ c ∈ t, reIsSpace c = false)
    (r : List Char) :
    tokSP (t ++ (' ' :: r)) = some (⟨t⟩, r) := by
  have htw : (t ++ (' ' :: r)).takeWhile (fun x => !reIsSpace x) = t :=
    takeWhile_append_cons (fun x hx => by rw [ht2 x hx]; rfl) (by decide)
  have hne : t.isEmpty = false := by
    cases t
    · exact absurd rfl ht1
    · rfl
  simp only [tokSP, htw, hne, Bool.false_eq_true, if_false, List.drop_left]

theorem ws_ne_quote {c : Char} (h : reIsSpace c = true) : lowerEq '"' c = false := by
  simp only [reIsSpace, Bool.or_eq_true, beq_iff_eq] at h
  rcases h with (((rfl | rfl) | rfl) | rfl) | rfl <;> rfl

/-- The closing continuation fails on any leading regex-whitespace
character (the quote literal cannot match it). -/
theorem closeSeq_ws_head {c : Char} (h : reIsSpace c = true) (r : List Char) :
    closeSeq (c :: r) = false := by
  simp only [closeSeq, litCI, ws_ne_quote h, Bool.false_eq_true, if_false]

/-- The closing continuation succeeds on `"` + whitespace + delimiter. -/
theorem closeSeq_quote {w : List Char} (hw : ∀ c ∈ w, reIsSpace c = true)
    {cl : List Char} (hcl : cl = ['/', '>'] ∨ cl = ['>']) :
    closeSeq ('"' :: (w ++ cl)) = true := by
  simp only [closeSeq, litCI, lowerEq, beq_self_eq_true, if_true]
  show (match wsStar (w ++ cl) with
        | '/' :: '>' :: _ => true
        | '>' :: _ => true
        | _ => false) = true
  rcases hcl with rfl | rfl
  · rw [show wsStar (w ++ ['/', '>']) = ['/', '>'] from dropWhile_append_cons hw (by decide)]
    rfl
  · rw [show wsStar (w ++ ['>']) = ['>'] from dropWhile_append_cons hw (by decide)]
    rfl

/-- The final `(\S+)"\s*/?>` step: the greedy token backtracks to exactly
the quote-free token preceding the closing quote. -/
theorem tokThen_step {t : List Char} (ht1 : t ≠ [])
    (ht2 : ∀ c ∈ t, reIsSpace c = false ∧ c ≠ '"')
    {w : List Char} (hw : ∀ c ∈ w, reIsSpace c = true)
    {cl : List Char} (hcl : cl = ['/', '>'] ∨ cl = ['>']) :
    tokThen closeSeq (t ++ ('"' :: (w ++ cl))) = some (⟨t⟩ : String) := by
  have htns : ∀ c ∈ t, (!reIsSpace c) = true := fun c hc => by rw [(ht2 c hc).1]; rfl
  rcases hrev : t.reverse with _ | ⟨c0, rev'⟩
  · exact absurd (List.reverse_eq_nil_iff.mp hrev) ht1
  have ht : t = (c0 :: rev').reverse := by rw [← hrev, List.reverse_reverse]
  rcases w with _ | ⟨w0, w'⟩
  · -- no whitespace before the closing delimiter: the greedy run swallows
    -- the quote and the delimiter and shrinks back
    rcases hcl with rfl | rfl
    · have hrun : (t ++ ('"' :: ([] ++ ['/', '>']))).takeWhile (fun x => !reIsSpace x) =
          t ++ ('"' :: ([] ++ ['/', '>'])) := by
        apply takeWhile_all
        intro x hx
        rcases List.mem_append.mp hx with hx | hx
        · exact htns x hx
        · fin_cases hx <;> rfl
      have hd : (t ++ ('"' :: ([] ++ ['/', '>']))).drop
          (t ++ ('"' :: ([] ++ ['/', '>']))).length = [] := List.drop_length _
      have hr : (t ++ ('"' :: ([] ++ ['/', '>']))).reverse =
          '>' :: '/' :: '"' :: t.reverse := by simp
      simp only [tokThen, hrun, hd, hr, hrev]
      simp only [shrinkMatch, show closeSeq [] = false from rfl,
        show closeSeq ['>'] = false from rfl,
        show closeSeq ['/', '>'] = false from rfl,
        show closeSeq ['"', '/', '>'] = true from rfl,
        Bool.false_eq_true, if_false, if_true]
      rw [ht]
    · have hrun : (t ++ ('"' :: ([] ++ ['>']))).takeWhile (fun x => !reIsSpace x) =
          t ++ ('"' :: ([] ++ ['>'])) := by
        apply takeWhile_all
        intro x hx
        rcases List.mem_append.mp hx with hx | hx
        · exact htns x hx
        · fin_cases hx <;> rfl
      have hd : (t ++ ('"' :: ([] ++ ['>']))).drop
          (t ++ ('"' :: ([] ++ ['>']))).length = [] := List.drop_length _
      have hr : (t ++ ('"' :: ([] ++ ['>']))).reverse =
          '>' :: '"' :: t.reverse := by simp
      simp only [tokThen, hrun, hd, hr, hrev]
      simp only [shrinkMatch, show closeSeq [] = false from rfl,
        show closeSeq ['>'] = false from rfl,
        show closeSeq ['"', '>'] = true from rfl,
        Bool.false_eq_true, if_false, if_true]
      rw [ht]
  · -- whitespace before the closing delimiter stops the greedy run right
    -- after the quote
    have hw0 : reIsSpace w0 = true := hw w0 (List.mem_cons_self w0 w')
    have hw' : ∀ x ∈ w', reIsSpace x = true := fun x hx => hw x (List.mem_cons_of_mem w0 hx)
    have he : t ++ ('"' :: (w0 :: w' ++ cl)) = (t ++ ['"']) ++ (w0 :: (w' ++ cl)) := by simp
    have hrun : ((t ++ ['"']) ++ (w0 :: (w' ++ cl))).takeWhile (fun x => !reIsSpace x) =
        t ++ ['"'] := by
      apply takeWhile_append_cons
      · intro x hx
        rcases List.mem_append.mp hx with hx | hx
        · exact htns x hx
        · rcases List.mem_singleton.mp hx with rfl
          rfl
      · rw [hw0]; rfl
    have hr : (t ++ ['"']).reverse = '"' :: t.reverse := by simp
    rw [he]
    simp only [tokThen, hrun, hr, List.drop_left, hrev]
    simp only [shrinkMatch, closeSeq_ws_head hw0 (w' ++ cl), Bool.false_eq_true, if_false]
    have hq : closeSeq ('"' :: (w0 :: (w' ++ cl))) = true := by
      have : w0 :: (w' ++ cl) = (w0 :: w') ++ cl := by simp
      rw [this]
      exact closeSeq_quote hw hcl
    simp only [hq, if_true]
    rw [ht]

/-- ASCII lowercasing can only produce `<` from `<` itself. -/
theorem toLower_eq_lt {c : Char} (h : Char.toLower c = '<') : c = '<' := by
  have h' : (if c.toNat ≥ 65 ∧ c.toNat ≤ 90 then Char.ofNat (c.toNat + 32) else c) = '<' := h
  split at h'
  · exfalso
    rename_i hr
    obtain ⟨h1, h2⟩ := hr
    obtain ⟨n, hn⟩ : ∃ n, c.toNat = n := ⟨_, rfl⟩
    rw [hn] at h' h1 h2
    interval_cases n <;> exact absurd h' (by decide)
  · exact h'

/-- Under `(?i)`, only `<` itself matches the literal `<`. -/
theorem lowerEq_lt_of_ne {c : Char} (h : c ≠ '<') : lowerEq '<' c = false := by
  by_contra hq
  rw [Bool.not_eq_false] at hq
  simp only [lowerEq, beq_iff_eq] at hq
  exact h (toLower_eq_lt hq.symm)

theorem ws_ne_lt {c : Char} (h : reIsSpace c = true) : c ≠ '<' := by
  simp only [reIsSpace, Bool.or_eq_true, beq_iff_eq] at h
  rcases h with (((rfl | rfl) | rfl) | rfl) | rfl <;> decide

/-- A suffix of an append is a suffix of the right part, or a nonempty
suffix of the left part followed by the whole right part. -/
theorem suffix_append_cases {α : Type} : ∀ {a : List α} {b r : List α}, r <:+ a ++ b →
    r <:+ b ∨ ∃ s, s <:+ a ∧ s ≠ [] ∧ r = s ++ b := by
  intro a
  induction a with
  | nil => intro b r h; exact Or.inl h
  | cons x a' ih =>
    intro b r h
    rw [List.cons_append, List.suffix_cons_iff] at h
    rcases h with rfl | h
    · exact Or.inr ⟨x :: a', List.suffix_refl _, List.cons_ne_nil x a', List.cons_append x a' b⟩
    · rcases ih h with h | ⟨s, hs, hne, rfl⟩
      · exact Or.inl h
      · exact Or.inr ⟨s, hs.trans (List.suffix_cons x a'), hne, rfl⟩

/-- A search fails when the matcher fails at every start position. -/
theorem searchAt_none {α : Type} {f : List Char → Option α} :
    ∀ {cs : List Char}, (∀ r, r <:+ cs → f r = none) → searchAt f cs = none := by
  intro cs
  induction cs with
  | nil => intro h; simpa [searchAt] using h [] (List.suffix_refl _)
  | cons c rest ih =>
    intro h
    simp only [searchAt, h (c :: rest) (List.suffix_refl _)]
    exact ih (fun r hr => h r (hr.trans (List.suffix_cons c rest)))

theorem takeWhile_append_all {p : Char → Bool} {l : List Char} (r : List Char)
    (h : ∀ x ∈ l, p x = true) : (l ++ r).takeWhile p = l ++ r.takeWhile p := by
  induction l with
  | nil => rfl
  | cons a as ih =>
    simp only [List.cons_append, List.takeWhile_cons, h a (List.mem_cons_self a as), if_true]
    rw [ih (fun x hx => h x (List.mem_cons_of_mem a hx))]

/-- The generic backtracking walk: as long as the continuation fails on the
current remainder, the claimed token shrinks. -/
theorem shrink_go (k : List Char → Bool) :
    ∀ (q base rem0 : List Char),
      (∀ q₁ q₂, q = q₁ ++ q₂ → q₂ ≠ [] → k (q₁.reverse ++ rem0) = false) →
      shrinkMatch k (q ++ base) rem0 = shrinkMatch k base (q.reverse ++ rem0) := by
  intro q
  induction q with
  | nil => intro base rem0 h; simp
  | cons c q' ih =>
    intro base rem0 h
    have h0 : k rem0 = false := by
      have hh := h [] (c :: q') rfl (List.cons_ne_nil c q')
      simpa using hh
    have h' : ∀ q₁ q₂, q' = q₁ ++ q₂ → q₂ ≠ [] → k (q₁.reverse ++ (c :: rem0)) = false := by
      intro q₁ q₂ he hne
      have hh := h (c :: q₁) q₂ (by rw [he, List.cons_append]) hne
      simpa [List.append_assoc] using hh
    simp only [List.cons_append, shrinkMatch, h0, Bool.false_eq_true, if_false]
    show shrinkMatch k (q' ++ base) (c :: rem0) = shrinkMatch k base ((c :: q').reverse ++ rem0)
    rw [ih base (c :: rem0) h']
    simp [List.append_assoc]

/-- The head of a `dropWhile` residue fails the predicate. -/
theorem dropWhile_head_false {p : Char → Bool} :
    ∀ {l : List Char} {d0 : Char} {D : List Char}, l.dropWhile p = d0 :: D → p d0 = false := by
  intro l
  induction l with
  | nil => intro d0 D h; simp [List.dropWhile] at h
  | cons a as ih =>
    intro d0 D h
    rw [List.dropWhile_cons] at h
    by_cases hp : p a = true
    · rw [if_pos hp] at h
      exact ih h
    · rw [if_neg hp] at h
      injection h with h1 _
      rw [← h1]
      exact Bool.not_eq_true _ |>.mp hp

/-- The final `(\S+)` capture before a closing quote, generically in the
continuation `k`: if `k` fails on every suffix of what follows the quote
but accepts the quote itself with that tail, the greedy token backtracks to
exactly the quote-free token. -/
theorem tokThen_generic (k : List Char → Bool) {t : List Char} (ht1 : t ≠ [])
    (htns : ∀ c ∈ t, reIsSpace c = false)
    {rest : List Char}
    (hfail : ∀ r, r <:+ rest → k r = false)
    (hok : k ('"' :: rest) = true) :
    tokThen k (t ++ ('"' :: rest)) = some (⟨t⟩ : String) := by
  obtain ⟨c0, rev', hrev⟩ : ∃ c l, t.reverse = c :: l := by
    cases hx : t.reverse with
    | nil => exact absurd (List.reverse_eq_nil_iff.mp hx) ht1
    | cons c l => exact ⟨c, l, rfl⟩
  have ht : t = (c0 :: rev').reverse := by rw [← hrev, List.reverse_reverse]
  have hPD : rest.takeWhile (fun c => !reIsSpace c) ++ rest.dropWhile (fun c => !reIsSpace c)
      = rest := List.takeWhile_append_dropWhile _ _
  set P := rest.takeWhile (fun c => !reIsSpace c) with hP
  set D := rest.dropWhile (fun c => !reIsSpace c) with hD
  have hcs : t ++ ('"' :: rest) = (t ++ '"' :: P) ++ D := by
    rw [← hPD]; simp
  have hrun : ((t ++ '"' :: P) ++ D).takeWhile (fun c => !reIsSpace c) = t ++ '"' :: P := by
    rcases hDc : D with _ | ⟨d0, D'⟩
    · rw [List.append_nil]
      apply takeWhile_all
      intro x hx
      rcases List.mem_append.mp hx with hx | hx
      · rw [htns x hx]; rfl
      · rcases List.mem_cons.mp hx with rfl | hx
        · rfl
        · rw [hP] at hx
          exact List.mem_takeWhile_imp (p := fun c => !reIsSpace c) hx
    · have hd0 : (!reIsSpace d0) = false := by
        exact dropWhile_head_false
          (show List.dropWhile (fun c => !reIsSpace c) rest = d0 :: D' from by rw [← hD, hDc])
      apply takeWhile_append_cons ?_ hd0
      intro x hx
      rcases List.mem_append.mp hx with hx | hx
      · rw [htns x hx]; rfl
      · rcases List.mem_cons.mp hx with rfl | hx
        · rfl
        · rw [hP] at hx
          exact List.mem_takeWhile_imp (p := fun c => !reIsSpace c) hx
  have hshape : (t ++ '"' :: P).reverse = P.reverse ++ ('"' :: t.reverse) := by
    simp
  rw [hcs]
  simp only [tokThen, hrun, List.drop_left, hshape]
  rw [shrink_go k P.reverse ('"' :: t.reverse) D ?hfails]
  case hfails =>
    intro q₁ q₂ he hne
    have hsuf : q₁.reverse ++ D <:+ rest := by
      have h1 : q₁.reverse <:+ P := by
        refine ⟨q₂.reverse, ?_⟩
        rw [← List.reverse_append, ← he, List.reverse_reverse]
      obtain ⟨u, hu⟩ := h1
      refine ⟨u, ?_⟩
      rw [← List.append_assoc, hu, hPD]
    exact hfail _ hsuf
  rw [List.reverse_reverse, hPD]
  have hrest : k rest = false := hfail rest (List.suffix_refl rest)
  rw [hrev]
  simp only [shrinkMatch, hrest, hok, Bool.false_eq_true, if_false, if_true]
  rw [ht]

theorem litCI_quote_cons (r : List Char) : litCI ['"'] ('"' :: r) = some r := by
  simp [litCI, lowerEq]

/-- The reversed-order closing continuation fails unless it starts at a
quote that case-matches the literal `"`. -/
theorem closeSeq2_head_false {c : Char} (h : lowerEq '"' c = false) (r : List Char) :
    closeSeq2 (c :: r) = false := by
  simp only [closeSeq2, litCI, h, Bool.false_eq_true, if_false]

/-- The reversed-order closing continuation fails at the opening quote of
the literal `"go-import"` (the next characters spell `go-import`, not
`name`). -/
theorem closeSeq2_inner_quote (r : List Char) : closeSeq2 ('"' :: 'g' :: r) = false := by
  have h2 : wsStar ('g' :: r) = 'g' :: r := by
    simp [wsStar, List.dropWhile_cons, show reIsSpace 'g' = false from by decide]
  have h3 : litCI "name".data ('g' :: r) = none := by
    show litCI ('n' :: 'a' :: 'm' :: 'e' :: []) ('g' :: r) = none
    simp [litCI, show lowerEq 'n' 'g' = false from by decide]
  simp only [closeSeq2, litCI_quote_cons, h2, h3]

/-- The reversed-order closing continuation fails at the closing quote of
the literal `"go-import"` (only the tag delimiter follows). -/
theorem closeSeq2_last_quote {w cl : List Char} (hw : ∀ c ∈ w, reIsSpace c = true)
    (hcl : cl = ['/', '>'] ∨ cl = ['>']) : closeSeq2 ('"' :: (w ++ cl)) = false := by
  rcases hcl with rfl | rfl
  · have h2 : wsStar (w ++ ['/', '>']) = ['/', '>'] := dropWhile_append_cons hw (by decide)
    have h3 : litCI "name".data ['/', '>'] = none := by decide
    simp only [closeSeq2, litCI_quote_cons, h2, h3]
  · have h2 : wsStar (w ++ ['>']) = ['>'] := dropWhile_append_cons hw (by decide)
    have h3 : litCI "name".data ['>'] = none := by decide
    simp only [closeSeq2, litCI_quote_cons, h2, h3]

/-- The reversed-order closing continuation accepts the real closing
quote: `"\s*name\s*=\s*"go-import"\s*/?>`. -/
theorem closeSeq2_ok {w5 w6 w7 w8 cl : List Char}
    (hw5 : ∀ c ∈ w5, reIsSpace c = true) (hw6 : ∀ c ∈ w6, reIsSpace c = true)
    (hw7 : ∀ c ∈ w7, reIsSpace c = true) (hw8 : ∀ c ∈ w8, reIsSpace c = true)
    (hcl : cl = ['/', '>'] ∨ cl = ['>']) :
    closeSeq2 ('"' :: (w5 ++ ("name".data ++ (w6 ++ (['='] ++ (w7 ++
      ("\"go-import\"".data ++ (w8 ++ cl)))))))) = true := by
  simp only [closeSeq2, litCI_quote_cons,
    step_lit hw5 (show ("name" : String).data = 'n' :: 'a' :: 'm' :: 'e' :: [] from rfl)
      (by decide),
    step_lit hw6 (show (['='] : List Char) = '=' :: [] from rfl) (by decide),
    step_lit hw7 (show ("\"go-import\"" : String).data =
      '"' :: 'g' :: 'o' :: '-' :: 'i' :: 'm' :: 'p' :: 'o' :: 'r' :: 't' :: '"' :: []
      from rfl) (by decide)]
  rcases hcl with rfl | rfl
  · rw [show wsStar (w8 ++ ['/', '>']) = ['/', '>'] from dropWhile_append_cons hw8 (by decide)]
    rfl
  · rw [show wsStar (w8 ++ ['>']) = ['>'] from dropWhile_append_cons hw8 (by decide)]
    rfl

/-- Any nonempty suffix of a whitespace run starts with whitespace, where
the reversed-order continuation fails. -/
theorem closeSeq2_ws_run_suffix {w B : List Char} (hw : ∀ c ∈ w, reIsSpace c = true)
    {s : List Char} (hs : s <:+ w) (hne : s ≠ []) : closeSeq2 (s ++ B) = false := by
  rcases s with _ | ⟨c, s'⟩
  · exact absurd rfl hne
  · have hc : reIsSpace c = true := hw c (hs.subset (List.mem_cons_self c s'))
    rw [List.cons_append]
    exact closeSeq2_head_false (ws_ne_quote hc) _

/-- Any nonempty suffix of a quote-free literal starts with a character the
reversed-order continuation's quote cannot match. -/
theorem closeSeq2_lit_suffix {L B : List Char} (hL : ∀ c ∈ L, lowerEq '"' c = false)
    {s : List Char} (hs : s <:+ L) (hne : s ≠ []) : closeSeq2 (s ++ B) = false := by
  rcases s with _ | ⟨c, s'⟩
  · exact absurd rfl hne
  · have hc := hL c (hs.subset (List.mem_cons_self c s'))
    rw [List.cons_append]
    exact closeSeq2_head_false hc _

/-- The reversed-order closing continuation fails on every suffix of what
follows the content's closing quote, so the greedy third token shrinks back
exactly to that quote. -/
theorem closeSeq2_fails_suffixes {w5 w6 w7 w8 cl : List Char}
    (hw5 : ∀ c ∈ w5, reIsSpace c = true) (hw6 : ∀ c ∈ w6, reIsSpace c = true)
    (hw7 : ∀ c ∈ w7, reIsSpace c = true) (hw8 : ∀ c ∈ w8, reIsSpace c = true)
    (hcl : cl = ['/', '>'] ∨ cl = ['>']) :
    ∀ r, r <:+ (w5 ++ ("name".data ++ (w6 ++ (['='] ++ (w7 ++
      ("\"go-import\"".data ++ (w8 ++ cl))))))) → closeSeq2 r = false := by
  intro r hr
  rcases suffix_append_cases hr with hr | ⟨s, hs, hne, rfl⟩
  · rcases suffix_append_cases hr with hr | ⟨s, hs, hne, rfl⟩
    · rcases suffix_append_cases hr with hr | ⟨s, hs, hne, rfl⟩
      · rcases suffix_append_cases hr with hr | ⟨s, hs, hne, rfl⟩
        · rcases suffix_append_cases hr with hr | ⟨s, hs, hne, rfl⟩
          · rcases suffix_append_cases hr with hr | ⟨s, hs, hne, rfl⟩
            · rcases suffix_append_cases hr with hr | ⟨s, hs, hne, rfl⟩
              · rcases hcl with rfl | rfl
                · have hm : r ∈ (['/', '>'] : List Char).tails := (List.mem_tails _ _).mpr hr
                  fin_cases hm <;> decide
                · have hm : r ∈ (['>'] : List Char).tails := (List.mem_tails _ _).mpr hr
                  fin_cases hm <;> decide
              · exact closeSeq2_ws_run_suffix hw8 hs hne
            · have hm : s ∈ (("\"go-import\"" : String).data).tails :=
                (List.mem_tails _ _).mpr hs
              fin_cases hm <;>
                first
                | exact absurd rfl hne
                | (simp only [List.cons_append, List.nil_append]
                   first
                   | exact closeSeq2_inner_quote _
                   | exact closeSeq2_last_quote hw8 hcl
                   | exact closeSeq2_head_false (by decide) _)
          · exact closeSeq2_ws_run_suffix hw7 hs hne
        · exact closeSeq2_lit_suffix (by decide) hs hne
      · exact closeSeq2_ws_run_suffix hw6 hs hne
    · exact closeSeq2_lit_suffix (by decide) hs hne
  · exact closeSeq2_ws_run_suffix hw5 hs hne

/-- The final `(\S+)"\s*name\s*=\s*"go-import"\s*/?>` step of the
reversed-order form. -/
theorem tokThen2_step {t : List Char} (ht1 : t ≠ [])
    (htns : ∀ c ∈ t, reIsSpace c = false)
    {w5 w6 w7 w8 cl : List Char}
    (hw5 : ∀ c ∈ w5, reIsSpace c = true) (hw6 : ∀ c ∈ w6, reIsSpace c = true)
    (hw7 : ∀ c ∈ w7, reIsSpace c = true) (hw8 : ∀ c ∈ w8, reIsSpace c = true)
    (hcl : cl = ['/', '>'] ∨ cl = ['>']) :
    tokThen closeSeq2 (t ++ ('"' :: (w5 ++ ("name".data ++ (w6 ++ (['='] ++ (w7 ++
      ("\"go-import\"".data ++ (w8 ++ cl))))))))) = some (⟨t⟩ : String) :=
  tokThen_generic closeSeq2 ht1 htns
    (closeSeq2_fails_suffixes hw5 hw6 hw7 hw8 hcl)
    (closeSeq2_ok hw5 hw6 hw7 hw8 hcl)

/-- A go-import directive in the first (name-first) attribute order, with a
whitespace run at every site the regex tolerates one: `w1`–`w8` may be
empty, the token separators `s1`, `s2` must be nonempty whitespace. -/
def renderGoImport (w1 w2 w3 w4 w5 w6 w7 s1 s2 w8 t1 t2 t3 : String)
    (selfClose : Bool) : String :=
  "<" ++ w1 ++ "meta" ++ w2 ++ "name" ++ w3 ++ "=" ++ w4 ++ "\"go-import\"" ++ w5 ++
  "content" ++ w6 ++ "=" ++ w7 ++ "\"" ++ t1 ++ s1 ++ t2 ++ s2 ++ t3 ++ "\"" ++ w8 ++
  (if selfClose then "/>" else ">")

/-- A go-source directive with a whitespace run at every site its regex
tolerates one.  The regex allows no whitespace between the `=` after `name`
and the quoted value, and requires single-space token separators, so those
are fixed. -/
def renderGoSource (w1 w2 w3 w4 w5 w6 w7 t1 t2 t3 t4 : String)
    (selfClose : Bool) : String :=
  "<" ++ w1 ++ "meta" ++ w2 ++ "name" ++ w3 ++ "=\"go-source\"" ++ w4 ++ "content" ++ w5 ++
  "=" ++ w6 ++ "\"" ++ t1 ++ " " ++ t2 ++ " " ++ t3 ++ " " ++ t4 ++ "\"" ++ w7 ++
  (if selfClose then "/>" else ">")

theorem matchGoImport1_core
    {w1 w2 w3 w4 w5 w6 w7 w8 s1 s2 t1 t2 t3 cl : List Char}
    (hw1 : ∀ c ∈ w1, reIsSpace c = true) (hw2 : ∀ c ∈ w2, reIsSpace c = true)
    (hw3 : ∀ c ∈ w3, reIsSpace c = true) (hw4 : ∀ c ∈ w4, reIsSpace c = true)
    (hw5 : ∀ c ∈ w5, reIsSpace c = true) (hw6 : ∀ c ∈ w6, reIsSpace c = true)
    (hw7 : ∀ c ∈ w7, reIsSpace c = true) (hw8 : ∀ c ∈ w8, reIsSpace c = true)
    (hs1n : s1 ≠ []) (hs1 : ∀ c ∈ s1, reIsSpace c = true)
    (hs2n : s2 ≠ []) (hs2 : ∀ c ∈ s2, reIsSpace c = true)
    (ht1n : t1 ≠ []) (ht1c : ∀ c ∈ t1, reIsSpace c = false ∧ c ≠ '"')
    (ht2n : t2 ≠ []) (ht2c : ∀ c ∈ t2, reIsSpace c = false ∧ c ≠ '"')
    (ht3n : t3 ≠ []) (ht3c : ∀ c ∈ t3, reIsSpace c = false ∧ c ≠ '"')
    (hcl : cl = ['/', '>'] ∨ cl = ['>']) :
    matchGoImport1At
      (['<'] ++
        (w1 ++
          ("meta".data ++
            (w2 ++
              ("name".data ++
                (w3 ++
                  (['='] ++
                    (w4 ++
                      ("\"go-import\"".data ++
                        (w5 ++
                          ("content".data ++
                            (w6 ++
                              (['='] ++
                                (w7 ++
                                  (['"'] ++
                                    (t1 ++
                                      (s1 ++
                                        (t2 ++
                                          (s2 ++
                                            (t3 ++
                                              ('"' :: (w8 ++ cl)))))))))))))))))))))) =
      some ⟨⟨t1⟩, ⟨t2⟩, ⟨t3⟩⟩ := by
  obtain ⟨c2, t2', hx2⟩ : ∃ c l, t2 = c :: l := by
    cases t2
    · exact absurd rfl ht2n
    · exact ⟨_, _, rfl⟩
  obtain ⟨c3, t3', hx3⟩ : ∃ c l, t3 = c :: l := by
    cases t3
    · exact absurd rfl ht3n
    · exact ⟨_, _, rfl⟩
  have hc2m : c2 ∈ t2 := by rw [hx2]; exact List.mem_cons_self c2 t2'
  have hc3m : c3 ∈ t3 := by rw [hx3]; exact List.mem_cons_self c3 t3'
  simp only [matchGoImport1At, litCI_self,
    step_lit hw1 (show ("meta" : String).data = 'm' :: 'e' :: 't' :: 'a' :: [] from rfl)
      (by decide),
    step_lit hw2 (show ("name" : String).data = 'n' :: 'a' :: 'm' :: 'e' :: [] from rfl)
      (by decide),
    step_lit hw3 (show (['='] : List Char) = '=' :: [] from rfl) (by decide),
    step_lit hw4 (show ("\"go-import\"" : String).data =
      '"' :: 'g' :: 'o' :: '-' :: 'i' :: 'm' :: 'p' :: 'o' :: 'r' :: 't' :: '"' :: []
      from rfl) (by decide),
    step_lit hw5 (show ("content" : String).data =
      'c' :: 'o' :: 'n' :: 't' :: 'e' :: 'n' :: 't' :: [] from rfl) (by decide),
    step_lit hw6 (show (['='] : List Char) = '=' :: [] from rfl) (by decide),
    step_lit hw7 (show (['"'] : List Char) = '"' :: [] from rfl) (by decide),
    tokWS_step ht1n (fun c hc => (ht1c c hc).1) hs1n hs1
      (show t2 ++ (s2 ++ (t3 ++ ('"' :: (w8 ++ cl)))) =
        c2 :: (t2' ++ (s2 ++ (t3 ++ ('"' :: (w8 ++ cl)))))
       from by rw [hx2]; rfl)
      (ht2c c2 hc2m).1,
    tokWS_step ht2n (fun c hc => (ht2c c hc).1) hs2n hs2
      (show t3 ++ ('"' :: (w8 ++ cl)) = c3 :: (t3' ++ ('"' :: (w8 ++ cl)))
       from by rw [hx3]; rfl)
      (ht3c c3 hc3m).1,
    tokThen_step ht3n ht3c hw8 hcl]

theorem searchAt_head {α : Type} {f : List Char → Option α} {cs : List Char} {a : α}
    (h : f cs = some a) : searchAt f cs = some a := by
  cases cs with
  | nil => simpa [searchAt] using h
  | cons c rest => simp [searchAt, h]

theorem parseGoImport_render
    (w1 w2 w3 w4 w5 w6 w7 s1 s2 w8 t1 t2 t3 : String) (selfClose : Bool)
    (hw1 : wsOnly w1) (hw2 : wsOnly w2) (hw3 : wsOnly w3) (hw4 : wsOnly w4)
    (hw5 : wsOnly w5) (hw6 : wsOnly w6) (hw7 : wsOnly w7) (hw8 : wsOnly w8)
    (hs1n : s1.data ≠ []) (hs1 : wsOnly s1) (hs2n : s2.data ≠ []) (hs2 : wsOnly s2)
    (ht1 : tokenOK t1) (ht2 : tokenOK t2) (ht3 : tokenOK t3) :
    parseGoImport (renderGoImport w1 w2 w3 w4 w5 w6 w7 s1 s2 w8 t1 t2 t3 selfClose) =
      some ⟨t1, t2, t3⟩ := by
  obtain ⟨ht1n, ht1c⟩ := ht1
  obtain ⟨ht2n, ht2c⟩ := ht2
  obtain ⟨ht3n, ht3c⟩ := ht3
  have hcore : matchGoImport1At
      (renderGoImport w1 w2 w3 w4 w5 w6 w7 s1 s2 w8 t1 t2 t3 selfClose).data =
      some ⟨t1, t2, t3⟩ := by
    cases selfClose with
    | false =>
      have e0 : (renderGoImport w1 w2 w3 w4 w5 w6 w7 s1 s2 w8 t1 t2 t3 false).data =
          ['<'] ++
            (w1.data ++
              ("meta".data ++
                (w2.data ++
                  ("name".data ++
                    (w3.data ++
                      (['='] ++
                        (w4.data ++
                          ("\"go-import\"".data ++
                            (w5.data ++
                              ("content".data ++
                                (w6.data ++
                                  (['='] ++
                                    (w7.data ++
                                      (['"'] ++
                                        (t1.data ++
                                          (s1.data ++
                                            (t2.data ++
                                              (s2.data ++
                                                (t3.data ++
                                                  ('"' :: (w8.data ++
                                                    ['>']))))))))))))))))))))) := by
        simp only [renderGoImport, Bool.false_eq_true, if_false, String.data_append,
          List.append_assoc]
        rfl
      rw [e0]
      exact matchGoImport1_core hw1 hw2 hw3 hw4 hw5 hw6 hw7 hw8 hs1n hs1 hs2n hs2
        ht1n ht1c ht2n ht2c ht3n ht3c (Or.inr rfl)
    | true =>
      have e0 : (renderGoImport w1 w2 w3 w4 w5 w6 w7 s1 s2 w8 t1 t2 t3 true).data =
          ['<'] ++
            (w1.data ++
              ("meta".data ++
                (w2.data ++
                  ("name".data ++
                    (w3.data ++
                      (['='] ++
                        (w4.data ++
                          ("\"go-import\"".data ++
                            (w5.data ++
                              ("content".data ++
                                (w6.data ++
                                  (['='] ++
                                    (w7.data ++
                                      (['"'] ++
                                        (t1.data ++
                                          (s1.data ++
                                            (t2.data ++
                                              (s2.data ++
                                                (t3.data ++
                                                  ('"' :: (w8.data ++
                                                    ['/', '>']))))))))))))))))))))) := by
        simp only [renderGoImport, if_true, String.data_append, List.append_assoc]
        rfl
      rw [e0]
      exact matchGoImport1_core hw1 hw2 hw3 hw4 hw5 hw6 hw7 hw8 hs1n hs1 hs2n hs2
        ht1n ht1c ht2n ht2c ht3n ht3c (Or.inl rfl)
  simp only [parseGoImport, searchAt_head hcore]

theorem matchGoSource_core
    {w1 w2 w3 w4 w5 w6 w7 t1 t2 t3 t4 cl : List Char}
    (hw1 : ∀ c ∈ w1, reIsSpace c = true) (hw2 : ∀ c ∈ w2, reIsSpace c = true)
    (hw3 : ∀ c ∈ w3, reIsSpace c = true) (hw4 : ∀ c ∈ w4, reIsSpace c = true)
    (hw5 : ∀ c ∈ w5, reIsSpace c = true) (hw6 : ∀ c ∈ w6, reIsSpace c = true)
    (hw7 : ∀ c ∈ w7, reIsSpace c = true)
    (ht1n : t1 ≠ []) (ht1c : ∀ c ∈ t1, reIsSpace c = false ∧ c ≠ '"')
    (ht2n : t2 ≠ []) (ht2c : ∀ c ∈ t2, reIsSpace c = false ∧ c ≠ '"')
    (ht3n : t3 ≠ []) (ht3c : ∀ c ∈ t3, reIsSpace c = false ∧ c ≠ '"')
    (ht4n : t4 ≠ []) (ht4c : ∀ c ∈ t4, reIsSpace c = false ∧ c ≠ '"')
    (hcl : cl = ['/', '>'] ∨ cl = ['>']) :
    matchGoSourceAt
      (['<'] ++
        (w1 ++
          ("meta".data ++
            (w2 ++
              ("name".data ++
                (w3 ++
                  ("=\"go-source\"".data ++
                    (w4 ++
                      ("content".data ++
                        (w5 ++
                          (['='] ++
                            (w6 ++
                              (['"'] ++
                                (t1 ++
                                  (' ' ::
                                    (t2 ++
                                      (' ' ::
                                        (t3 ++
                                          (' ' ::
                                            (t4 ++
                                              ('"' :: (w7 ++ cl)))))))))))))))))))))) =
      some ⟨⟨t1⟩, ⟨t2⟩, ⟨t3⟩, ⟨t4⟩⟩ := by
  simp only [matchGoSourceAt, litCI_self,
    step_lit hw1 (show ("meta" : String).data = 'm' :: 'e' :: 't' :: 'a' :: [] from rfl)
      (by decide),
    step_lit hw2 (show ("name" : String).data = 'n' :: 'a' :: 'm' :: 'e' :: [] from rfl)
      (by decide),
    step_lit hw3 (show ("=\"go-source\"" : String).data =
      '=' :: '"' :: 'g' :: 'o' :: '-' :: 's' :: 'o' :: 'u' :: 'r' :: 'c' :: 'e' :: '"' :: []
      from rfl) (by decide),
    step_lit hw4 (show ("content" : String).data =
      'c' :: 'o' :: 'n' :: 't' :: 'e' :: 'n' :: 't' :: [] from rfl) (by decide),
    step_lit hw5 (show (['='] : List Char) = '=' :: [] from rfl) (by decide),
    step_lit hw6 (show (['"'] : List Char) = '"' :: [] from rfl) (by decide),
    tokSP_step ht1n (fun c hc => (ht1c c hc).1)
      (t2 ++ (' ' :: (t3 ++ (' ' :: (t4 ++ ('"' :: (w7 ++ cl))))))),
    tokSP_step ht2n (fun c hc => (ht2c c hc).1)
      (t3 ++ (' ' :: (t4 ++ ('"' :: (w7 ++ cl))))),
    tokSP_step ht3n (fun c hc => (ht3c c hc).1)
      (t4 ++ ('"' :: (w7 ++ cl))),
    tokThen_step ht4n ht4c hw7 hcl]

theorem parseGoSource_render
    (w1 w2 w3 w4 w5 w6 w7 t1 t2 t3 t4 : String) (selfClose : Bool)
    (hw1 : wsOnly w1) (hw2 : wsOnly w2) (hw3 : wsOnly w3) (hw4 : wsOnly w4)
    (hw5 : wsOnly w5) (hw6 : wsOnly w6) (hw7 : wsOnly w7)
    (ht1 : tokenOK t1) (ht2 : tokenOK t2) (ht3 : tokenOK t3) (ht4 : tokenOK t4) :
    parseGoSource (renderGoSource w1 w2 w3 w4 w5 w6 w7 t1 t2 t3 t4 selfClose) =
      some ⟨t1, t2, t3, t4⟩ := by
  obtain ⟨ht1n, ht1c⟩ := ht1
  obtain ⟨ht2n, ht2c⟩ := ht2
  obtain ⟨ht3n, ht3c⟩ := ht3
  obtain ⟨ht4n, ht4c⟩ := ht4
  have hcore : matchGoSourceAt
      (renderGoSource w1 w2 w3 w4 w5 w6 w7 t1 t2 t3 t4 selfClose).data =
      some ⟨t1, t2, t3, t4⟩ := by
    cases selfClose with
    | false =>
      have e0 : (renderGoSource w1 w2 w3 w4 w5 w6 w7 t1 t2 t3 t4 false).data =
          ['<'] ++
            (w1.data ++
              ("meta".data ++
                (w2.data ++
                  ("name".data ++
                    (w3.data ++
                      ("=\"go-source\"".data ++
                        (w4.data ++
                          ("content".data ++
                            (w5.data ++
                              (['='] ++
                                (w6.data ++
                                  (['"'] ++
                                    (t1.data ++
                                      (' ' ::
                                        (t2.data ++
                                          (' ' ::
                                            (t3.data ++
                                              (' ' ::
                                                (t4.data ++
                                                  ('"' :: (w7.data ++
                                                    ['>']))))))))))))))))))))) := by
        simp only [renderGoSource, Bool.false_eq_true, if_false, String.data_append,
          List.append_assoc]
        rfl
      rw [e0]
      exact matchGoSource_core hw1 hw2 hw3 hw4 hw5 hw6 hw7
        ht1n ht1c ht2n ht2c ht3n ht3c ht4n ht4c (Or.inr rfl)
    | true =>
      have e0 : (renderGoSource w1 w2 w3 w4 w5 w6 w7 t1 t2 t3 t4 true).data =
          ['<'] ++
            (w1.data ++
              ("meta".data ++
                (w2.data ++
                  ("name".data ++
                    (w3.data ++
                      ("=\"go-source\"".data ++
                        (w4.data ++
                          ("content".data ++
                            (w5.data ++
                              (['='] ++
                                (w6.data ++
                                  (['"'] ++
                                    (t1.data ++
                                      (' ' ::
                                        (t2.data ++
                                          (' ' ::
                                            (t3.data ++
                                              (' ' ::
                                                (t4.data ++
                                                  ('"' :: (w7.data ++
                                                    ['/', '>']))))))))))))))))))))) := by
        simp only [renderGoSource, if_true, String.data_append, List.append_assoc]
        rfl
      rw [e0]
      exact matchGoSource_core hw1 hw2 hw3 hw4 hw5 hw6 hw7
        ht1n ht1c ht2n ht2c ht3n ht3c ht4n ht4c (Or.inl rfl)
  simp only [parseGoSource, searchAt_head hcore]

theorem matchGoImport2_core
    {w1 w2 w3 w4 w5 w6 w7 w8 s1 s2 t1 t2 t3 cl : List Char}
    (hw1 : ∀ c ∈ w1, reIsSpace c = true) (hw2 : ∀ c ∈ w2, reIsSpace c = true)
    (hw3 : ∀ c ∈ w3, reIsSpace c = true) (hw4 : ∀ c ∈ w4, reIsSpace c = true)
    (hw5 : ∀ c ∈ w5, reIsSpace c = true) (hw6 : ∀ c ∈ w6, reIsSpace c = true)
    (hw7 : ∀ c ∈ w7, reIsSpace c = true) (hw8 : ∀ c ∈ w8, reIsSpace c = true)
    (hs1n : s1 ≠ []) (hs1 : ∀ c ∈ s1, reIsSpace c = true)
    (hs2n : s2 ≠ []) (hs2 : ∀ c ∈ s2, reIsSpace c = true)
    (ht1n : t1 ≠ []) (ht1c : ∀ c ∈ t1, reIsSpace c = false ∧ c ≠ '"')
    (ht2n : t2 ≠ []) (ht2c : ∀ c ∈ t2, reIsSpace c = false ∧ c ≠ '"')
    (ht3n : t3 ≠ []) (ht3c : ∀ c ∈ t3, reIsSpace c = false ∧ c ≠ '"')
    (hcl : cl = ['/', '>'] ∨ cl = ['>']) :
    matchGoImport2At
      (['<'] ++ (w1 ++ ("meta".data ++ (w2 ++ ("content".data ++ (w3 ++ (['='] ++ (w4 ++ (['"'] ++ (t1 ++ (s1 ++ (t2 ++ (s2 ++ (t3 ++ ('"' :: (w5 ++ ("name".data ++ (w6 ++ (['='] ++ (w7 ++ ("\"go-import\"".data ++ (w8 ++ cl)))))))))))))))))))))) =
      some ⟨⟨t1⟩, ⟨t2⟩, ⟨t3⟩⟩ := by
  obtain ⟨c2, t2x, hx2⟩ : ∃ c l, t2 = c :: l := by
    cases t2
    · exact absurd rfl ht2n
    · exact ⟨_, _, rfl⟩
  obtain ⟨c3, t3x, hx3⟩ : ∃ c l, t3 = c :: l := by
    cases t3
    · exact absurd rfl ht3n
    · exact ⟨_, _, rfl⟩
  have hc2m : c2 ∈ t2 := by rw [hx2]; exact List.mem_cons_self c2 t2x
  have hc3m : c3 ∈ t3 := by rw [hx3]; exact List.mem_cons_self c3 t3x
  simp only [matchGoImport2At, litCI_self,
    step_lit hw1 (show ("meta" : String).data = 'm' :: 'e' :: 't' :: 'a' :: [] from rfl)
      (by decide),
    step_lit hw2 (show ("content" : String).data =
      'c' :: 'o' :: 'n' :: 't' :: 'e' :: 'n' :: 't' :: [] from rfl) (by decide),
    step_lit hw3 (show (['='] : List Char) = '=' :: [] from rfl) (by decide),
    step_lit hw4 (show (['"'] : List Char) = '"' :: [] from rfl) (by decide),
    tokWS_step ht1n (fun c hc => (ht1c c hc).1) hs1n hs1
      (show t2 ++ (s2 ++ (t3 ++ ('"' :: (w5 ++ ("name".data ++ (w6 ++ (['='] ++ (w7 ++ ("\"go-import\"".data ++ (w8 ++ cl)))))))))) = c2 :: (t2x ++ (s2 ++ (t3 ++ ('"' :: (w5 ++ ("name".data ++ (w6 ++ (['='] ++ (w7 ++ ("\"go-import\"".data ++ (w8 ++ cl)))))))))))
       from by rw [hx2]; rfl)
      (ht2c c2 hc2m).1,
    tokWS_step ht2n (fun c hc => (ht2c c hc).1) hs2n hs2
      (show t3 ++ ('"' :: (w5 ++ ("name".data ++ (w6 ++ (['='] ++ (w7 ++ ("\"go-import\"".data ++ (w8 ++ cl)))))))) = c3 :: (t3x ++ ('"' :: (w5 ++ ("name".data ++ (w6 ++ (['='] ++ (w7 ++ ("\"go-import\"".data ++ (w8 ++ cl)))))))))
       from by rw [hx3]; rfl)
      (ht3c c3 hc3m).1,
    tokThen2_step ht3n (fun c hc => (ht3c c hc).1) hw5 hw6 hw7 hw8 hcl]

/-- A go-import directive in the second (content-first, SourceHut)
attribute order, with a whitespace run at every site its regex tolerates
one. -/
def renderGoImport2 (w1 w2 w3 w4 w5 w6 w7 w8 s1 s2 t1 t2 t3 : String)
    (selfClose : Bool) : String :=
  "<" ++ w1 ++ "meta" ++ w2 ++ "content" ++ w3 ++ "=" ++ w4 ++ "\"" ++ t1 ++ s1 ++ t2 ++ s2 ++
  t3 ++ "\"" ++ w5 ++ "name" ++ w6 ++ "=" ++ w7 ++ "\"go-import\"" ++ w8 ++
  (if selfClose then "/>" else ">")

/-- A literal step fails when the first character after the whitespace run
does not case-match the literal. -/
theorem step_lit_fail {w : List Char} (hw : ∀ x ∈ w, reIsSpace x = true)
    {l : List Char} {c : Char} {l2 : List Char} (hl : l = c :: l2)
    {u : List Char} {d : Char} {r : List Char} (hu : u = d :: r)
    (hd : reIsSpace d = false) (hne : lowerEq c d = false) :
    litCI l (wsStar (w ++ u)) = none := by
  subst hl
  subst hu
  show litCI (c :: l2) ((w ++ (d :: r)).dropWhile reIsSpace) = none
  rw [dropWhile_append_cons hw hd]
  simp only [litCI, hne, Bool.false_eq_true, if_false]

/-- The first go-import regex cannot start at a character that does not
case-match `<`. -/
theorem matchGoImport1At_head_false {c : Char} (h : lowerEq '<' c = false) (r : List Char) :
    matchGoImport1At (c :: r) = none := by
  simp only [matchGoImport1At, litCI, h, Bool.false_eq_true, if_false]

/-- The first (name-first) go-import regex fails on a tag whose first
attribute is `content`. -/
theorem matchGoImport1At_content_first {w1 w2 X : List Char}
    (hw1 : ∀ c ∈ w1, reIsSpace c = true) (hw2 : ∀ c ∈ w2, reIsSpace c = true) :
    matchGoImport1At (['<'] ++ (w1 ++ ("meta".data ++ (w2 ++ ("content".data ++ X))))) =
      none := by
  simp only [matchGoImport1At, litCI_self,
    step_lit hw1 (show ("meta" : String).data = 'm' :: 'e' :: 't' :: 'a' :: [] from rfl)
      (by decide),
    step_lit_fail hw2 (show ("name" : String).data = 'n' :: 'a' :: 'm' :: 'e' :: [] from rfl)
      (show ("content".data ++ X : List Char) = 'c' :: ("ontent".data ++ X) from rfl)
      (by decide) (by decide)]

/-- No `<` occurs after the opening one in a rendered content-first
go-import directive whose tokens are `<`-free. -/
theorem no_lt_in_goImport2_tail {w1 w2 w3 w4 w5 w6 w7 w8 s1 s2 t1 t2 t3 cl : List Char}
    (hw1 : ∀ c ∈ w1, reIsSpace c = true) (hw2 : ∀ c ∈ w2, reIsSpace c = true)
    (hw3 : ∀ c ∈ w3, reIsSpace c = true) (hw4 : ∀ c ∈ w4, reIsSpace c = true)
    (hw5 : ∀ c ∈ w5, reIsSpace c = true) (hw6 : ∀ c ∈ w6, reIsSpace c = true)
    (hw7 : ∀ c ∈ w7, reIsSpace c = true) (hw8 : ∀ c ∈ w8, reIsSpace c = true)
    (hs1 : ∀ c ∈ s1, reIsSpace c = true) (hs2 : ∀ c ∈ s2, reIsSpace c = true)
    (hlt1 : '<' ∉ t1) (hlt2 : '<' ∉ t2) (hlt3 : '<' ∉ t3)
    (hcl : cl = ['/', '>'] ∨ cl = ['>']) :
    '<' ∉ (w1 ++ ("meta".data ++ (w2 ++ ("content".data ++ (w3 ++ (['='] ++ (w4 ++ (['"'] ++ (t1 ++ (s1 ++ (t2 ++ (s2 ++ (t3 ++ ('"' :: (w5 ++ ("name".data ++ (w6 ++ (['='] ++ (w7 ++ ("\"go-import\"".data ++ (w8 ++ cl))))))))))))))))))))) := by
  intro hmem
  rcases List.mem_append.mp hmem with h | hmem
  · exact absurd (hw1 '<' h) (by decide)
  rcases List.mem_append.mp hmem with h | hmem
  · exact absurd h (by decide)
  rcases List.mem_append.mp hmem with h | hmem
  · exact absurd (hw2 '<' h) (by decide)
  rcases List.mem_append.mp hmem with h | hmem
  · exact absurd h (by decide)
  rcases List.mem_append.mp hmem with h | hmem
  · exact absurd (hw3 '<' h) (by decide)
  rcases List.mem_append.mp hmem with h | hmem
  · exact absurd h (by decide)
  rcases List.mem_append.mp hmem with h | hmem
  · exact absurd (hw4 '<' h) (by decide)
  rcases List.mem_append.mp hmem with h | hmem
  · exact absurd h (by decide)
  rcases List.mem_append.mp hmem with h | hmem
  · exact hlt1 h
  rcases List.mem_append.mp hmem with h | hmem
  · exact absurd (hs1 '<' h) (by decide)
  rcases List.mem_append.mp hmem with h | hmem
  · exact hlt2 h
  rcases List.mem_append.mp hmem with h | hmem
  · exact absurd (hs2 '<' h) (by decide)
  rcases List.mem_append.mp hmem with h | hmem
  · exact hlt3 h
  rcases List.mem_cons.mp hmem with h | hmem
  · exact absurd h (by decide)
  rcases List.mem_append.mp hmem with h | hmem
  · exact absurd (hw5 '<' h) (by decide)
  rcases List.mem_append.mp hmem with h | hmem
  · exact absurd h (by decide)
  rcases List.mem_append.mp hmem with h | hmem
  · exact absurd (hw6 '<' h) (by decide)
  rcases List.mem_append.mp hmem with h | hmem
  · exact absurd h (by decide)
  rcases List.mem_append.mp hmem with h | hmem
  · exact absurd (hw7 '<' h) (by decide)
  rcases List.mem_append.mp hmem with h | hmem
  · exact absurd h (by decide)
  rcases List.mem_append.mp hmem with h | hmem
  · exact absurd (hw8 '<' h) (by decide)
  rcases hcl with rfl | rfl
  · exact absurd hmem (by decide)
  · exact absurd hmem (by decide)

theorem parseGoImport_render2
    (w1 w2 w3 w4 w5 w6 w7 w8 s1 s2 t1 t2 t3 : String) (selfClose : Bool)
    (hw1 : wsOnly w1) (hw2 : wsOnly w2) (hw3 : wsOnly w3) (hw4 : wsOnly w4)
    (hw5 : wsOnly w5) (hw6 : wsOnly w6) (hw7 : wsOnly w7) (hw8 : wsOnly w8)
    (hs1n : s1.data ≠ []) (hs1 : wsOnly s1) (hs2n : s2.data ≠ []) (hs2 : wsOnly s2)
    (ht1 : tokenOK t1) (ht2 : tokenOK t2) (ht3 : tokenOK t3)
    (hlt1 : '<' ∉ t1.data) (hlt2 : '<' ∉ t2.data) (hlt3 : '<' ∉ t3.data) :
    parseGoImport (renderGoImport2 w1 w2 w3 w4 w5 w6 w7 w8 s1 s2 t1 t2 t3 selfClose) =
      some ⟨t1, t2, t3⟩ := by
  obtain ⟨ht1n, ht1c⟩ := ht1
  obtain ⟨ht2n, ht2c⟩ := ht2
  obtain ⟨ht3n, ht3c⟩ := ht3
  cases selfClose with
    | false =>
      have e0 : (renderGoImport2 w1 w2 w3 w4 w5 w6 w7 w8 s1 s2 t1 t2 t3 false).data =
          ['<'] ++ (w1.data ++ ("meta".data ++ (w2.data ++ ("content".data ++ (w3.data ++ (['='] ++ (w4.data ++ (['"'] ++ (t1.data ++ (s1.data ++ (t2.data ++ (s2.data ++ (t3.data ++ ('"' :: (w5.data ++ ("name".data ++ (w6.data ++ (['='] ++ (w7.data ++ ("\"go-import\"".data ++ (w8.data ++ ['>']))))))))))))))))))))) := by
        simp only [renderGoImport2, Bool.false_eq_true, if_false, String.data_append, List.append_assoc]
        rfl
      have hnone : searchAt matchGoImport1At
          (['<'] ++ (w1.data ++ ("meta".data ++ (w2.data ++ ("content".data ++ (w3.data ++ (['='] ++ (w4.data ++ (['"'] ++ (t1.data ++ (s1.data ++ (t2.data ++ (s2.data ++ (t3.data ++ ('"' :: (w5.data ++ ("name".data ++ (w6.data ++ (['='] ++ (w7.data ++ ("\"go-import\"".data ++ (w8.data ++ ['>'])))))))))))))))))))))) = none := by
        apply searchAt_none
        intro r hr
        have hr2 : r <:+ '<' :: (w1.data ++ ("meta".data ++ (w2.data ++ ("content".data ++ (w3.data ++ (['='] ++ (w4.data ++ (['"'] ++ (t1.data ++ (s1.data ++ (t2.data ++ (s2.data ++ (t3.data ++ ('"' :: (w5.data ++ ("name".data ++ (w6.data ++ (['='] ++ (w7.data ++ ("\"go-import\"".data ++ (w8.data ++ ['>']))))))))))))))))))))) := hr
        rcases List.suffix_cons_iff.mp hr2 with rfl | hrr
        · exact matchGoImport1At_content_first hw1 hw2
        · rcases r with _ | ⟨c, r2⟩
          · rfl
          · have hcm : c ∈ (w1.data ++ ("meta".data ++ (w2.data ++ ("content".data ++ (w3.data ++ (['='] ++ (w4.data ++ (['"'] ++ (t1.data ++ (s1.data ++ (t2.data ++ (s2.data ++ (t3.data ++ ('"' :: (w5.data ++ ("name".data ++ (w6.data ++ (['='] ++ (w7.data ++ ("\"go-import\"".data ++ (w8.data ++ ['>']))))))))))))))))))))) := hrr.subset (List.mem_cons_self c r2)
            have hclt : c ≠ '<' := fun hEq =>
              no_lt_in_goImport2_tail hw1 hw2 hw3 hw4 hw5 hw6 hw7 hw8 hs1 hs2
                hlt1 hlt2 hlt3 (Or.inr rfl) (hEq ▸ hcm)
            exact matchGoImport1At_head_false (lowerEq_lt_of_ne hclt) r2
      have hcore : matchGoImport2At
          (['<'] ++ (w1.data ++ ("meta".data ++ (w2.data ++ ("content".data ++ (w3.data ++ (['='] ++ (w4.data ++ (['"'] ++ (t1.data ++ (s1.data ++ (t2.data ++ (s2.data ++ (t3.data ++ ('"' :: (w5.data ++ ("name".data ++ (w6.data ++ (['='] ++ (w7.data ++ ("\"go-import\"".data ++ (w8.data ++ ['>'])))))))))))))))))))))) = some ⟨t1, t2, t3⟩ :=
        matchGoImport2_core hw1 hw2 hw3 hw4 hw5 hw6 hw7 hw8 hs1n hs1 hs2n hs2
          ht1n ht1c ht2n ht2c ht3n ht3c (Or.inr rfl)
      simp only [parseGoImport, e0, hnone, searchAt_head hcore]
    | true =>
      have e0 : (renderGoImport2 w1 w2 w3 w4 w5 w6 w7 w8 s1 s2 t1 t2 t3 true).data =
          ['<'] ++ (w1.data ++ ("meta".data ++ (w2.data ++ ("content".data ++ (w3.data ++ (['='] ++ (w4.data ++ (['"'] ++ (t1.data ++ (s1.data ++ (t2.data ++ (s2.data ++ (t3.data ++ ('"' :: (w5.data ++ ("name".data ++ (w6.data ++ (['='] ++ (w7.data ++ ("\"go-import\"".data ++ (w8.data ++ ['/', '>']))))))))))))))))))))) := by
        simp only [renderGoImport2, if_true, String.data_append, List.append_assoc]
        rfl
      have hnone : searchAt matchGoImport1At
          (['<'] ++ (w1.data ++ ("meta".data ++ (w2.data ++ ("content".data ++ (w3.data ++ (['='] ++ (w4.data ++ (['"'] ++ (t1.data ++ (s1.data ++ (t2.data ++ (s2.data ++ (t3.data ++ ('"' :: (w5.data ++ ("name".data ++ (w6.data ++ (['='] ++ (w7.data ++ ("\"go-import\"".data ++ (w8.data ++ ['/', '>'])))))))))))))))))))))) = none := by
        apply searchAt_none
        intro r hr
        have hr2 : r <:+ '<' :: (w1.data ++ ("meta".data ++ (w2.data ++ ("content".data ++ (w3.data ++ (['='] ++ (w4.data ++ (['"'] ++ (t1.data ++ (s1.data ++ (t2.data ++ (s2.data ++ (t3.data ++ ('"' :: (w5.data ++ ("name".data ++ (w6.data ++ (['='] ++ (w7.data ++ ("\"go-import\"".data ++ (w8.data ++ ['/', '>']))))))))))))))))))))) := hr
        rcases List.suffix_cons_iff.mp hr2 with rfl | hrr
        · exact matchGoImport1At_content_first hw1 hw2
        · rcases r with _ | ⟨c, r2⟩
          · rfl
          · have hcm : c ∈ (w1.data ++ ("meta".data ++ (w2.data ++ ("content".data ++ (w3.data ++ (['='] ++ (w4.data ++ (['"'] ++ (t1.data ++ (s1.data ++ (t2.data ++ (s2.data ++ (t3.data ++ ('"' :: (w5.data ++ ("name".data ++ (w6.data ++ (['='] ++ (w7.data ++ ("\"go-import\"".data ++ (w8.data ++ ['/', '>']))))))))))))))))))))) := hrr.subset (List.mem_cons_self c r2)
            have hclt : c ≠ '<' := fun hEq =>
              no_lt_in_goImport2_tail hw1 hw2 hw3 hw4 hw5 hw6 hw7 hw8 hs1 hs2
                hlt1 hlt2 hlt3 (Or.inl rfl) (hEq ▸ hcm)
            exact matchGoImport1At_head_false (lowerEq_lt_of_ne hclt) r2
      have hcore : matchGoImport2At
          (['<'] ++ (w1.data ++ ("meta".data ++ (w2.data ++ ("content".data ++ (w3.data ++ (['='] ++ (w4.data ++ (['"'] ++ (t1.data ++ (s1.data ++ (t2.data ++ (s2.data ++ (t3.data ++ ('"' :: (w5.data ++ ("name".data ++ (w6.data ++ (['='] ++ (w7.data ++ ("\"go-import\"".data ++ (w8.data ++ ['/', '>'])))))))))))))))))))))) = some ⟨t1, t2, t3⟩ :=
        matchGoImport2_core hw1 hw2 hw3 hw4 hw5 hw6 hw7 hw8 hs1n hs1 hs2n hs2
          ht1n ht1c ht2n ht2c ht3n ht3c (Or.inl rfl)
      simp only [parseGoImport, e0, hnone, searchAt_head hcore]

/-- C5 counterexample: the claim says both extractors tolerate arbitrary
whitespace around every `=` sign, but `parseGoSource` rejects any
whitespace between the `=` after `name` and the quoted value: the minimal
directive parses while the version padded only at that site does not. -/
theorem c5_counterexample :
    parseGoSource "<meta name=\"go-source\" content=\"a b c d\">" =
        some ⟨"a", "b", "c", "d"⟩ ∧
      parseGoSource "<meta name = \"go-source\" content=\"a b c d\">" = none := by
  constructor
  · decide
  · decide

/-- C5 amended: `parseGoImport` is tolerant of arbitrary whitespace runs at
every site around `=` signs and tag delimiters, in both attribute orders —
every padded rendering of a well-formed directive parses to exactly its
tokens, so any two paddings (including the minimal one) agree; for the
reversed (content-first) order the tokens must additionally be `<`-free, so
that the padded directive cannot embed a start of the name-first pattern.
`parseGoSource` is tolerant at every such site except between the `=` after
`name` and the quoted value, where no whitespace is accepted (see the
counterexample), and its content tokens must be separated by single
spaces. -/
theorem c5_whitespace_tolerance :
    (∀ w1 w2 w3 w4 w5 w6 w7 s1 s2 w8 t1 t2 t3 : String, ∀ selfClose : Bool,
      wsOnly w1 → wsOnly w2 → wsOnly w3 → wsOnly w4 → wsOnly w5 → wsOnly w6 →
      wsOnly w7 → wsOnly w8 → s1.data ≠ [] → wsOnly s1 → s2.data ≠ [] → wsOnly s2 →
      tokenOK t1 → tokenOK t2 → tokenOK t3 →
      parseGoImport (renderGoImport w1 w2 w3 w4 w5 w6 w7 s1 s2 w8 t1 t2 t3 selfClose) =
        some ⟨t1, t2, t3⟩) ∧
    (∀ w1 w2 w3 w4 w5 w6 w7 w8 s1 s2 t1 t2 t3 : String, ∀ selfClose : Bool,
      wsOnly w1 → wsOnly w2 → wsOnly w3 → wsOnly w4 → wsOnly w5 → wsOnly w6 →
      wsOnly w7 → wsOnly w8 → s1.data ≠ [] → wsOnly s1 → s2.data ≠ [] → wsOnly s2 →
      tokenOK t1 → tokenOK t2 → tokenOK t3 →
      '<' ∉ t1.data → '<' ∉ t2.data → '<' ∉ t3.data →
      parseGoImport (renderGoImport2 w1 w2 w3 w4 w5 w6 w7 w8 s1 s2 t1 t2 t3 selfClose) =
        some ⟨t1, t2, t3⟩) ∧
    (∀ w1 w2 w3 w4 w5 w6 w7 t1 t2 t3 t4 : String, ∀ selfClose : Bool,
      wsOnly w1 → wsOnly w2 → wsOnly w3 → wsOnly w4 → wsOnly w5 → wsOnly w6 →
      wsOnly w7 →
      tokenOK t1 → tokenOK t2 → tokenOK t3 → tokenOK t4 →
      parseGoSource (renderGoSource w1 w2 w3 w4 w5 w6 w7 t1 t2 t3 t4 selfClose) =
        some ⟨t1, t2, t3, t4⟩) := by
  refine ⟨?_, ?_, ?_⟩
  · intro w1 w2 w3 w4 w5 w6 w7 s1 s2 w8 t1 t2 t3 selfClose
    intro hw1 hw2 hw3 hw4 hw5 hw6 hw7 hw8 hs1n hs1 hs2n hs2 ht1 ht2 ht3
    exact parseGoImport_render w1 w2 w3 w4 w5 w6 w7 s1 s2 w8 t1 t2 t3 selfClose
      hw1 hw2 hw3 hw4 hw5 hw6 hw7 hw8 hs1n hs1 hs2n hs2 ht1 ht2 ht3
  · intro w1 w2 w3 w4 w5 w6 w7 w8 s1 s2 t1 t2 t3 selfClose
    intro hw1 hw2 hw3 hw4 hw5 hw6 hw7 hw8 hs1n hs1 hs2n hs2 ht1 ht2 ht3 hlt1 hlt2 hlt3
    exact parseGoImport_render2 w1 w2 w3 w4 w5 w6 w7 w8 s1 s2 t1 t2 t3 selfClose
      hw1 hw2 hw3 hw4 hw5 hw6 hw7 hw8 hs1n hs1 hs2n hs2 ht1 ht2 ht3 hlt1 hlt2 hlt3
  · intro w1 w2 w3 w4 w5 w6 w7 t1 t2 t3 t4 selfClose
    intro hw1 hw2 hw3 hw4 hw5 hw6 hw7 ht1 ht2 ht3 ht4
    exact parseGoSource_render w1 w2 w3 w4 w5 w6 w7 t1 t2 t3 t4 selfClose
      hw1 hw2 hw3 hw4 hw5 hw6 hw7 ht1 ht2 ht3 ht4

/-- C5 witness: heavily padded go-import directives in both attribute
orders and a padded go-source directive all parse to exactly their
tokens. -/
theorem c5_witness :
    parseGoImport (renderGoImport " " "  " "\t" " \t " "" " " "\n " "  " " \n" "\t\t"
        "example.org/foo" "git" "https://github.com/example/foo" true) =
      some ⟨"example.org/foo", "git", "https://github.com/example/foo"⟩ ∧
    parseGoImport (renderGoImport2 " " "  " "\t" "" " " "\t" " " "\n" " " "  "
        "example.org/x" "git" "https://git.sr.ht/~u/x" false) =
      some ⟨"example.org/x", "git", "https://git.sr.ht/~u/x"⟩ ∧
    parseGoSource (renderGoSource " " "  " "\t" "" " " "\t " " "
        "a" "b" "c" "d" false) =
      some ⟨"a", "b", "c", "d"⟩ :=
  ⟨(c5_whitespace_tolerance.1 " " "  " "\t" " \t " "" " " "\n " "  " " \n" "\t\t"
      "example.org/foo" "git" "https://github.com/example/foo" true
      (by decide) (by decide) (by decide) (by decide) (by decide) (by decide)
      (by decide) (by decide) (by decide) (by decide) (by decide) (by decide)
      (by decide) (by decide) (by decide)),
   (c5_whitespace_tolerance.2.1 " " "  " "\t" "" " " "\t" " " "\n" " " "  "
      "example.org/x" "git" "https://git.sr.ht/~u/x" false
      (by decide) (by decide) (by decide) (by decide) (by decide) (by decide)
      (by decide) (by decide) (by decide) (by decide) (by decide) (by decide)
      (by decide) (by decide) (by decide) (by decide) (by decide) (by decide)),
   (c5_whitespace_tolerance.2.2 " " "  " "\t" "" " " "\t " " " "a" "b" "c" "d" false
      (by decide) (by decide) (by decide) (by decide) (by decide) (by decide)
      (by decide) (by decide) (by decide) (by decide) (by decide))⟩

end Gocomply
